import Mathlib

/-! Trip plugin (osrm-backend): shallow embedding and verified properties.

Sources embedded:
* `src/engine/plugins/trip.cpp`: `IsStronglyConnectedComponent`,
  `IsSupportedParameterCombination`, `ManipulateTableForFSE`;
* `include/engine/plugins/trip.hpp`: `TripPlugin::ComputeRoute`,
  `TripPlugin::HandleRequest`.

`EdgeWeight` (a signed 32-bit integer) is embedded as `Int`, `std::size_t` and `NodeID`
as `Nat`; the two places where the width of a machine integer matters (the wrap of
`number_of_locations - 1` and the `static_cast<int>`) are written with explicit
reductions modulo a power of two.
-/

namespace osrm.engine.plugins

/-! ## Values the sources take from headers outside this development -/

/-- Modelled from the spec: the reserved sentinel `UNREACHABLE` of the cost matrix, named
`INVALID_EDGE_WEIGHT` in the sources (its header `util/typedefs.hpp` is absent). It is the
largest value of the signed 32-bit `EdgeWeight`. -/
def INVALID_EDGE_WEIGHT : Int := 2147483647

/-- Largest value of `std::size_t` on a 64-bit target. -/
def SIZE_MAX : Nat := 2 ^ 64 - 1

/-- Modelled from the spec: the "undefined/unused" value of `sourceId`/`destinationId`,
named `INVALID_INDEX` in the sources (header absent): the largest `std::size_t`. -/
def INVALID_INDEX : Nat := SIZE_MAX

/-! ## `util::DistTableWrapper<EdgeWeight>` -/

/-- Modelled from the spec: the cost matrix, "flat N×N cost array (row-major)", whose header
`util/dist_table_wrapper.hpp` is absent: the flat table and the number of nodes. -/
structure DistTableWrapper where
  table : List Int
  number_of_nodes : Nat
deriving DecidableEq, Repr

namespace DistTableWrapper

/-- `GetNumberOfNodes()`. -/
def GetNumberOfNodes (t : DistTableWrapper) : Nat := t.number_of_nodes

/-- `size()`: the length of the flat table. -/
def size (t : DistTableWrapper) : Nat := t.table.length

/-- `operator()(from, to)`: the cell in row `r`, column `c` of the row-major table.
Reading outside the table is undefined in the sources; here it yields `0`. -/
def cost (t : DistTableWrapper) (r c : Nat) : Int :=
  t.table.getD (r * t.number_of_nodes + c) 0

/-- `SetValue(from, to, value)`: overwrite one cell of the row-major table, no resize. -/
def SetValue (t : DistTableWrapper) (r c : Nat) (value : Int) : DistTableWrapper :=
  ⟨t.table.set (r * t.number_of_nodes + c) value, t.number_of_nodes⟩

/-- A table built for `n` locations: `n × n` cells. -/
def WellFormed (t : DistTableWrapper) (n : Nat) : Prop :=
  t.number_of_nodes = n ∧ t.table.length = n * n

instance (t : DistTableWrapper) (n : Nat) : Decidable (t.WellFormed n) := by
  unfold WellFormed; infer_instance

end DistTableWrapper

/-! ## `trip.cpp` -/

/-- `std::find(first, last, value)` as the offset of the first match from `first`
(the length of the range when there is none, that is `last`). -/
def std_find {α : Type} [BEq α] (l : List α) (value : α) : Nat := l.indexOf value

/-- `std::rotate(first, middle, last)` with `middle` at offset `k`: the elements from
`middle` on, followed by those before it. -/
def std_rotate {α : Type} (l : List α) (k : Nat) : List α := l.drop k ++ l.take k

/-- `IsStronglyConnectedComponent` (trip.cpp 29-33): `std::find` of the sentinel over the
whole flat table reaches the end. -/
def IsStronglyConnectedComponent (result_table : DistTableWrapper) : Bool :=
  std_find result_table.table INVALID_EDGE_WEIGHT == result_table.table.length

/-- `IsSupportedParameterCombination` (trip.cpp 35-51). -/
def IsSupportedParameterCombination (fixed_start fixed_end roundtrip : Bool) : Bool :=
  if fixed_start && fixed_end && !roundtrip then
    true
  else if roundtrip then
    true
  else
    false

/-- First loop of `ManipulateTableForFSE` (trip.cpp 77-82): the source column. -/
def sourceColumnLoop (source_id : Nat) (result_table : DistTableWrapper) : DistTableWrapper :=
  (List.range result_table.GetNumberOfNodes).foldl
    (fun t i => if i = source_id then t else t.SetValue i source_id INVALID_EDGE_WEIGHT)
    result_table

/-- Second loop of `ManipulateTableForFSE` (trip.cpp 87-92): the destination row. -/
def destinationRowLoop (destination_id : Nat) (result_table : DistTableWrapper) :
    DistTableWrapper :=
  (List.range result_table.GetNumberOfNodes).foldl
    (fun t i =>
      if i = destination_id then t else t.SetValue destination_id i INVALID_EDGE_WEIGHT)
    result_table

/-- `ManipulateTableForFSE` (trip.cpp 53-103): the two loops, then the two single writes,
in the order of the sources. -/
def ManipulateTableForFSE (source_id destination_id : Nat)
    (result_table : DistTableWrapper) : DistTableWrapper :=
  let t1 := sourceColumnLoop source_id result_table
  let t2 := destinationRowLoop destination_id t1
  let t3 := t2.SetValue destination_id source_id 0
  t3.SetValue source_id destination_id INVALID_EDGE_WEIGHT

/-! ## `trip.hpp` -/

/-- `api::TripParameters::SourceType`. -/
inductive SourceType
  | Any
  | First
deriving DecidableEq, Repr

/-- `api::TripParameters::DestinationType`. -/
inductive DestinationType
  | Any
  | Last
deriving DecidableEq, Repr

/-- The fields of `api::TripParameters` that `HandleRequest` reads; the coordinates
enter only through their number. -/
structure TripParameters where
  number_of_coordinates : Nat
  source : SourceType
  destination : DestinationType
  roundtrip : Bool
deriving DecidableEq, Repr

/-- A snapped location (`PhantomNode`), kept abstract as an identifier. -/
abbrev PhantomNode := Nat

/-- `PhantomNodes`: the two end points of one segment. -/
abbrev PhantomNodes := PhantomNode × PhantomNode

/-- What the collaborators of `HandleRequest` answer for one request: the plugin's
configured maximum, `CheckAllCoordinates`, the number of results of `GetPhantomNodes`,
`SnapPhantomNodes`, the many-to-many `duration_table`, and the two order solvers. -/
structure Collaborators where
  max_locations_trip : Int
  coordinates_valid : Bool
  phantom_node_pairs_size : Nat
  snapped_phantoms : List PhantomNode
  durations : List Int
  BruteForceTrip : Nat → DistTableWrapper → List Nat
  FarthestInsertionTrip : Nat → DistTableWrapper → List Nat

/-- Result of `HandleRequest`: `SuperT::Error(code, message, json_result)`, the bare
`Status::Error`, `Status::Ok` with the trip and the segments handed to the shortest-path
search, or undefined behaviour of the sources (a lookup outside a vector). -/
inductive Outcome
  | error (code message : String)
  | statusError
  | ok (trip : List Nat) (segment_end_coordinates : List PhantomNodes)
  | undefined
deriving DecidableEq, Repr

/-- The `code` member that `SuperT::Error` stores in `json_result`; absent for the other
results. -/
def Outcome.code : Outcome → Option String
  | Outcome.error c _ => some c
  | _ => none

/-- `static_cast<int>` of a `std::size_t`: reduction modulo `2^32` into the signed range. -/
def static_cast_int (n : Nat) : Int :=
  if n % 2 ^ 32 < 2 ^ 31 then ((n % 2 ^ 32 : Nat) : Int) else ((n % 2 ^ 32 : Nat) : Int) - 2 ^ 32

/-- Subtraction of one on `std::size_t` (wraps at zero). -/
def size_t_pred (n : Nat) : Nat := (n + SIZE_MAX) % 2 ^ 64

/-- The segments of the first loop of `ComputeRoute` (trip.hpp 85-92): one per pair of
neighbours of the trip. -/
def routeLegs (snapped_phantoms : List PhantomNode) :
    List Nat → Option (List PhantomNodes)
  | [] => some []
  | [_] => some []
  | from_node :: to_node :: rest =>
    match snapped_phantoms[from_node]?, snapped_phantoms[to_node]?,
        routeLegs snapped_phantoms (to_node :: rest) with
    | some a, some b, some segs => some ((a, b) :: segs)
    | _, _, _ => none

/-- `TripPlugin::ComputeRoute` (trip.hpp 74-111) up to the call of the shortest-path
search: the list `segment_end_coordinates`; `none` when a vector is read out of range
(or `back()`/`front()` of an empty trip). -/
def ComputeRoute (snapped_phantoms : List PhantomNode) (trip : List Nat)
    (roundtrip : Bool) : Option (List PhantomNodes) :=
  match routeLegs snapped_phantoms trip with
  | none => none
  | some segs =>
    if roundtrip then
      match trip.getLast?, trip.head? with
      | some back, some front =>
        match snapped_phantoms[back]?, snapped_phantoms[front]? with
        | some a, some b => some (segs ++ [(a, b)])
        | _, _ => none
      | _, _ => none
    else
      some segs

/-- `BF_MAX_FEASABLE` (trip.hpp 180). -/
def BF_MAX_FEASABLE : Nat := 10

/-- The rotation of the solver's result in `HandleRequest` (trip.hpp 206-219). -/
def rotateTrip (fixed_start fixed_end roundtrip : Bool) (destination_id : Nat)
    (trip : List Nat) : List Nat :=
  if !fixed_end || fixed_start then
    std_rotate trip (std_find trip 0)
  else if fixed_end && !fixed_start && roundtrip then
    std_rotate trip (std_find trip destination_id)
  else
    trip

/-- `source_id` as derived in `HandleRequest` (trip.hpp 122-127). -/
def sourceId (parameters : TripParameters) : Nat :=
  if parameters.source = SourceType.First then 0 else INVALID_INDEX

/-- `destination_id` as derived in `HandleRequest` (trip.hpp 123-132). -/
def destinationId (parameters : TripParameters) : Nat :=
  if parameters.destination = DestinationType.Last then
    size_t_pred parameters.number_of_coordinates
  else INVALID_INDEX

/-- `fixed_start` (trip.hpp 133). -/
def fixedStart (parameters : TripParameters) : Bool :=
  sourceId parameters == 0

/-- `fixed_end` (trip.hpp 134). -/
def fixedEnd (parameters : TripParameters) : Bool :=
  destinationId parameters == size_t_pred parameters.number_of_coordinates

/-- `TripPlugin::HandleRequest` (trip.hpp 113-231), the checks in the order of the
sources. -/
def HandleRequest (env : Collaborators) (parameters : TripParameters) : Outcome :=
  let number_of_locations := parameters.number_of_coordinates
  let source_id := sourceId parameters
  let destination_id := destinationId parameters
  let fixed_start := fixedStart parameters
  let fixed_end := fixedEnd parameters
  if !IsSupportedParameterCombination fixed_start fixed_end parameters.roundtrip then
    Outcome.error "NotImplemented" "This request is not supported"
  else if decide (env.max_locations_trip > 0) &&
      decide (static_cast_int number_of_locations > env.max_locations_trip) then
    Outcome.error "TooBig" "Too many trip coordinates"
  else if !env.coordinates_valid then
    Outcome.error "InvalidValue" "Invalid coordinate value."
  else if env.phantom_node_pairs_size != number_of_locations then
    Outcome.error "NoSegment"
      ("Could not find a matching segment for coordinate " ++
        toString env.phantom_node_pairs_size)
  else if fixed_start && fixed_end &&
      (decide (source_id ≥ number_of_locations) ||
        decide (destination_id ≥ number_of_locations)) then
    Outcome.error "InvalidValue" "Invalid source or destination value."
  else
    let result_table : DistTableWrapper := ⟨env.durations, number_of_locations⟩
    if result_table.size == 0 then
      Outcome.statusError
    else if !IsStronglyConnectedComponent result_table then
      Outcome.error "NoTrips" "No trip visiting all destinations possible."
    else
      let result_table :=
        if fixed_start && fixed_end then
          ManipulateTableForFSE source_id destination_id result_table
        else result_table
      let trip :=
        if number_of_locations < BF_MAX_FEASABLE then
          env.BruteForceTrip number_of_locations result_table
        else
          env.FarthestInsertionTrip number_of_locations result_table
      let trip := rotateTrip fixed_start fixed_end parameters.roundtrip destination_id trip
      match ComputeRoute env.snapped_phantoms trip parameters.roundtrip with
      | some route => Outcome.ok trip route
      | none => Outcome.undefined

/-- The table handed to the order solvers (trip.hpp 172-173, 189-192): the durations,
rewritten by `ManipulateTableForFSE` when both ends are fixed. -/
def requestTable (parameters : TripParameters) (durations : List Int) : DistTableWrapper :=
  if fixedStart parameters && fixedEnd parameters then
    ManipulateTableForFSE (sourceId parameters) (destinationId parameters)
      ⟨durations, parameters.number_of_coordinates⟩
  else ⟨durations, parameters.number_of_coordinates⟩

/-- The two order solvers `trip::BruteForceTrip` and `trip::FarthestInsertionTrip`. -/
inductive Solver
  | BruteForce
  | FarthestInsertion
deriving DecidableEq, Repr

/-- The branch of `HandleRequest` that picks the solver (trip.hpp 197-204). -/
def selectedSolver (number_of_locations : Nat) : Solver :=
  if number_of_locations < BF_MAX_FEASABLE then Solver.BruteForce
  else Solver.FarthestInsertion

/-- The call of one of the two solvers. -/
def runSolver (env : Collaborators) : Solver → Nat → DistTableWrapper → List Nat
  | Solver.BruteForce => env.BruteForceTrip
  | Solver.FarthestInsertion => env.FarthestInsertionTrip

/-! ## Tour costs -/

/-- Modelled from the spec: the cost of the open path along an order, the sum over its
pairs of neighbours ("one segment per consecutive pair"). -/
def pathCost (t : DistTableWrapper) : List Nat → Int
  | [] => 0
  | [_] => 0
  | a :: b :: rest => t.cost a b + pathCost t (b :: rest)

/-- Modelled from the spec: the "total cycle cost" of an order, all legs between
neighbours plus the closing leg from the last element back to the first. -/
def cycleCost (t : DistTableWrapper) (order : List Nat) : Int :=
  match order.getLast?, order.head? with
  | some back, some front => pathCost t order + t.cost back front
  | _, _ => 0

/-- The "Original Table" of the comment in `ManipulateTableForFSE` (trip.cpp 66-72), with
`a, b, c, d, e` numbered `0 .. 4`. -/
def exampleTable : DistTableWrapper :=
  ⟨[0, 15, 36, 34, 30,
    15, 0, 25, 30, 34,
    36, 25, 0, 18, 32,
    34, 30, 18, 0, 15,
    30, 34, 32, 15, 0], 5⟩

/-! ## Cells of the row-major table -/

theorem flat_index_lt {n r c : Nat} (hr : r < n) (hc : c < n) : r * n + c < n * n := by
  have h : (r + 1) * n ≤ n * n := Nat.mul_le_mul_right n hr
  rw [Nat.succ_mul] at h
  omega

theorem flat_index_inj {n r c r' c' : Nat} (hc : c < n) (hc' : c' < n)
    (h : r * n + c = r' * n + c') : r = r' ∧ c = c' := by
  have h1 : (r * n + c) / n = r := by
    rw [Nat.mul_comm, Nat.mul_add_div (by omega), Nat.div_eq_of_lt hc, Nat.add_zero]
  have h2 : (r' * n + c') / n = r' := by
    rw [Nat.mul_comm, Nat.mul_add_div (by omega), Nat.div_eq_of_lt hc', Nat.add_zero]
  have hr : r = r' := by rw [← h1, ← h2, h]
  subst hr
  exact ⟨rfl, by omega⟩

namespace DistTableWrapper

theorem SetValue_wellFormed {t : DistTableWrapper} {n : Nat} (h : t.WellFormed n)
    (r c : Nat) (v : Int) : (t.SetValue r c v).WellFormed n := by
  obtain ⟨h1, h2⟩ := h
  exact ⟨h1, by simp [SetValue, h2]⟩

theorem SetValue_cost {t : DistTableWrapper} {n : Nat} (h : t.WellFormed n)
    {r c r' c' : Nat} (hc : c < n) (hr' : r' < n) (hc' : c' < n) (v : Int) :
    (t.SetValue r' c' v).cost r c = if r = r' ∧ c = c' then v else t.cost r c := by
  obtain ⟨h1, h2⟩ := h
  have hlt : r' * n + c' < t.table.length := by rw [h2]; exact flat_index_lt hr' hc'
  unfold cost SetValue
  simp only [h1, List.getD_eq_getElem?_getD, List.getElem?_set]
  by_cases hrc : r = r' ∧ c = c'
  · obtain ⟨rfl, rfl⟩ := hrc
    simp [hlt]
  · have hne : r' * n + c' ≠ r * n + c := by
      intro he
      have := flat_index_inj hc' hc he
      exact hrc ⟨this.1.symm, this.2.symm⟩
    simp [hne, hrc]

end DistTableWrapper

/-! ## What `ManipulateTableForFSE` writes -/

theorem sourceColumn_foldl {n source_id : Nat} (hs : source_id < n) (is : List Nat) :
    ∀ t : DistTableWrapper, t.WellFormed n → (∀ i ∈ is, i < n) →
      (is.foldl (fun t i =>
          if i = source_id then t else t.SetValue i source_id INVALID_EDGE_WEIGHT) t).WellFormed n ∧
      ∀ r c, c < n →
        (is.foldl (fun t i =>
          if i = source_id then t else t.SetValue i source_id INVALID_EDGE_WEIGHT) t).cost r c =
          if r ∈ is ∧ r ≠ source_id ∧ c = source_id then INVALID_EDGE_WEIGHT else t.cost r c := by
  induction is with
  | nil => intro t h _; exact ⟨h, by simp⟩
  | cons i is ih =>
    intro t h hlt
    have hi : i < n := hlt i (List.mem_cons_self _ _)
    have hrest : ∀ j ∈ is, j < n := fun j hj => hlt j (List.mem_cons_of_mem _ hj)
    rw [List.foldl_cons]
    by_cases his : i = source_id
    · rw [if_pos his]
      refine ⟨(ih t h hrest).1, fun r c hc => ?_⟩
      rw [(ih t h hrest).2 r c hc]
      by_cases hr : r = i
      · subst hr; simp [his]
      · simp [hr]
    · rw [if_neg his]
      have h' := DistTableWrapper.SetValue_wellFormed h i source_id INVALID_EDGE_WEIGHT
      refine ⟨(ih _ h' hrest).1, fun r c hc => ?_⟩
      rw [(ih _ h' hrest).2 r c hc, DistTableWrapper.SetValue_cost h hc hi hs]
      by_cases hr : r = i
      · subst hr
        by_cases hcs : c = source_id <;> simp [his, hcs]
      · simp [hr]

theorem destinationRow_foldl {n destination_id : Nat} (hd : destination_id < n)
    (is : List Nat) :
    ∀ t : DistTableWrapper, t.WellFormed n → (∀ i ∈ is, i < n) →
      (is.foldl (fun t i =>
          if i = destination_id then t
          else t.SetValue destination_id i INVALID_EDGE_WEIGHT) t).WellFormed n ∧
      ∀ r c, c < n →
        (is.foldl (fun t i =>
          if i = destination_id then t
          else t.SetValue destination_id i INVALID_EDGE_WEIGHT) t).cost r c =
          if c ∈ is ∧ c ≠ destination_id ∧ r = destination_id then INVALID_EDGE_WEIGHT
          else t.cost r c := by
  induction is with
  | nil => intro t h _; exact ⟨h, by simp⟩
  | cons i is ih =>
    intro t h hlt
    have hi : i < n := hlt i (List.mem_cons_self _ _)
    have hrest : ∀ j ∈ is, j < n := fun j hj => hlt j (List.mem_cons_of_mem _ hj)
    rw [List.foldl_cons]
    by_cases his : i = destination_id
    · rw [if_pos his]
      refine ⟨(ih t h hrest).1, fun r c hc => ?_⟩
      rw [(ih t h hrest).2 r c hc]
      by_cases hci : c = i
      · subst hci; simp [his]
      · simp [hci]
    · rw [if_neg his]
      have h' := DistTableWrapper.SetValue_wellFormed h destination_id i INVALID_EDGE_WEIGHT
      refine ⟨(ih _ h' hrest).1, fun r c hc => ?_⟩
      rw [(ih _ h' hrest).2 r c hc, DistTableWrapper.SetValue_cost h hc hd hi]
      by_cases hci : c = i
      · subst hci
        by_cases hrd : r = destination_id <;> simp [his, hrd]
      · simp [hci]

theorem sourceColumnLoop_spec {n source_id : Nat} {t : DistTableWrapper}
    (h : t.WellFormed n) (hs : source_id < n) :
    (sourceColumnLoop source_id t).WellFormed n ∧
    ∀ r c, r < n → c < n →
      (sourceColumnLoop source_id t).cost r c =
        if r ≠ source_id ∧ c = source_id then INVALID_EDGE_WEIGHT else t.cost r c := by
  have key := sourceColumn_foldl hs (List.range n) t h (fun i hi => List.mem_range.mp hi)
  unfold sourceColumnLoop DistTableWrapper.GetNumberOfNodes
  rw [h.1]
  refine ⟨key.1, fun r c hr hc => ?_⟩
  rw [key.2 r c hc]
  simp [List.mem_range, hr]

theorem destinationRowLoop_spec {n destination_id : Nat} {t : DistTableWrapper}
    (h : t.WellFormed n) (hd : destination_id < n) :
    (destinationRowLoop destination_id t).WellFormed n ∧
    ∀ r c, r < n → c < n →
      (destinationRowLoop destination_id t).cost r c =
        if c ≠ destination_id ∧ r = destination_id then INVALID_EDGE_WEIGHT
        else t.cost r c := by
  have key := destinationRow_foldl hd (List.range n) t h (fun i hi => List.mem_range.mp hi)
  unfold destinationRowLoop DistTableWrapper.GetNumberOfNodes
  rw [h.1]
  refine ⟨key.1, fun r c _ hc => ?_⟩
  rw [key.2 r c hc]
  simp [List.mem_range, hc]

theorem ManipulateTableForFSE_wellFormed {n source_id destination_id : Nat}
    {t : DistTableWrapper} (h : t.WellFormed n) (hs : source_id < n)
    (hd : destination_id < n) :
    (ManipulateTableForFSE source_id destination_id t).WellFormed n := by
  unfold ManipulateTableForFSE
  exact DistTableWrapper.SetValue_wellFormed
    (DistTableWrapper.SetValue_wellFormed
      (destinationRowLoop_spec (sourceColumnLoop_spec h hs).1 hd).1 _ _ _) _ _ _

/-- Every cell of the table after `ManipulateTableForFSE`, by cases on the last write
that reaches it. -/
theorem ManipulateTableForFSE_cost {n source_id destination_id : Nat}
    {t : DistTableWrapper} (h : t.WellFormed n) (hs : source_id < n)
    (hd : destination_id < n) {r c : Nat} (hr : r < n) (hc : c < n) :
    (ManipulateTableForFSE source_id destination_id t).cost r c =
      if r = source_id ∧ c = destination_id then INVALID_EDGE_WEIGHT
      else if r = destination_id ∧ c = source_id then 0
      else if c ≠ destination_id ∧ r = destination_id then INVALID_EDGE_WEIGHT
      else if r ≠ source_id ∧ c = source_id then INVALID_EDGE_WEIGHT
      else t.cost r c := by
  have h1 := sourceColumnLoop_spec h hs
  have h2 := destinationRowLoop_spec h1.1 hd
  have h3 := DistTableWrapper.SetValue_wellFormed h2.1 destination_id source_id 0
  unfold ManipulateTableForFSE
  simp only []
  rw [DistTableWrapper.SetValue_cost h3 hc hs hd, DistTableWrapper.SetValue_cost h2.1 hc hd hs,
    h2.2 r c hr hc, h1.2 r c hr hc]

/-! ## The feasibility check -/

theorem IsStronglyConnectedComponent_iff_not_mem (t : DistTableWrapper) :
    IsStronglyConnectedComponent t = true ↔ INVALID_EDGE_WEIGHT ∉ t.table := by
  unfold IsStronglyConnectedComponent std_find
  rw [beq_iff_eq, List.indexOf_eq_length]

theorem mem_table_iff_cell {n : Nat} {t : DistTableWrapper} (h : t.WellFormed n) (x : Int) :
    x ∈ t.table ↔ ∃ r c, r < n ∧ c < n ∧ t.cost r c = x := by
  obtain ⟨h1, h2⟩ := h
  constructor
  · intro hx
    obtain ⟨i, hi, hxi⟩ := List.mem_iff_getElem.mp hx
    have hin : i < n * n := h2 ▸ hi
    have hn : 0 < n := by
      rcases Nat.eq_zero_or_pos n with h0 | h0
      · subst h0; simp at hin
      · exact h0
    refine ⟨i / n, i % n, Nat.div_lt_of_lt_mul hin, Nat.mod_lt _ hn, ?_⟩
    unfold DistTableWrapper.cost
    rw [h1, Nat.div_add_mod' i n, List.getD_eq_getElem?_getD, List.getElem?_eq_getElem hi]
    exact hxi
  · rintro ⟨r, c, hr, hc, hx⟩
    have hlt : r * n + c < t.table.length := by rw [h2]; exact flat_index_lt hr hc
    unfold DistTableWrapper.cost at hx
    rw [h1, List.getD_eq_getElem?_getD, List.getElem?_eq_getElem hlt] at hx
    rw [← hx]
    exact List.getElem_mem hlt

/-- C1: on an `n × n` table `IsStronglyConnectedComponent` returns true exactly when no
cell equals `INVALID_EDGE_WEIGHT`; in particular it returns false as soon as one cell
holds the sentinel. -/
theorem IsStronglyConnectedComponent_iff (n : Nat) (t : DistTableWrapper)
    (h : t.WellFormed n) :
    (IsStronglyConnectedComponent t = true ↔
      ∀ r c, r < n → c < n → t.cost r c ≠ INVALID_EDGE_WEIGHT) ∧
    ((∃ r c, r < n ∧ c < n ∧ t.cost r c = INVALID_EDGE_WEIGHT) →
      IsStronglyConnectedComponent t = false) := by
  have key : IsStronglyConnectedComponent t = true ↔
      ∀ r c, r < n → c < n → t.cost r c ≠ INVALID_EDGE_WEIGHT := by
    rw [IsStronglyConnectedComponent_iff_not_mem, mem_table_iff_cell h]
    constructor
    · intro hno r c hr hc he
      exact hno ⟨r, c, hr, hc, he⟩
    · rintro hall ⟨r, c, hr, hc, he⟩
      exact hall r c hr hc he
  refine ⟨key, ?_⟩
  rintro ⟨r, c, hr, hc, he⟩
  rw [← Bool.not_eq_true, key]
  intro hall
  exact hall r c hr hc he

/-- Witness of C1: a feasible 2 × 2 table. -/
theorem IsStronglyConnectedComponent_iff_witness :
    (⟨[0, 3, 4, 0], 2⟩ : DistTableWrapper).WellFormed 2 ∧
    ((IsStronglyConnectedComponent ⟨[0, 3, 4, 0], 2⟩ = true ↔
      ∀ r c, r < 2 → c < 2 →
        (⟨[0, 3, 4, 0], 2⟩ : DistTableWrapper).cost r c ≠ INVALID_EDGE_WEIGHT) ∧
    ((∃ r c, r < 2 ∧ c < 2 ∧
        (⟨[0, 3, 4, 0], 2⟩ : DistTableWrapper).cost r c = INVALID_EDGE_WEIGHT) →
      IsStronglyConnectedComponent ⟨[0, 3, 4, 0], 2⟩ = false)) :=
  ⟨by decide, IsStronglyConnectedComponent_iff 2 ⟨[0, 3, 4, 0], 2⟩ (by decide)⟩

/-! ## The endpoint transform -/

/-- C2: with distinct in-range `source_id` and `destination_id`, after
`ManipulateTableForFSE` the source column (outside the rows of source and destination),
the destination row (outside the columns of destination and source) and the cell
(source, destination) all hold `INVALID_EDGE_WEIGHT`. -/
theorem ManipulateTableForFSE_unreachable (n : Nat) (t : DistTableWrapper)
    (source_id destination_id : Nat) (h : t.WellFormed n) (hs : source_id < n)
    (hd : destination_id < n) (hne : source_id ≠ destination_id) :
    (∀ i, i < n → i ≠ source_id → i ≠ destination_id →
      (ManipulateTableForFSE source_id destination_id t).cost i source_id =
        INVALID_EDGE_WEIGHT) ∧
    (∀ i, i < n → i ≠ destination_id → i ≠ source_id →
      (ManipulateTableForFSE source_id destination_id t).cost destination_id i =
        INVALID_EDGE_WEIGHT) ∧
    (ManipulateTableForFSE source_id destination_id t).cost source_id destination_id =
      INVALID_EDGE_WEIGHT := by
  refine ⟨fun i hi h1 h2 => ?_, fun i hi h1 h2 => ?_, ?_⟩
  · rw [ManipulateTableForFSE_cost h hs hd hi hs]
    simp [h1, h2, hne]
  · rw [ManipulateTableForFSE_cost h hs hd hd hi]
    simp [h1, h2, hne, Ne.symm hne]
  · rw [ManipulateTableForFSE_cost h hs hd hs hd]
    simp

/-- Witness of C2: the 3 × 3 table with rows 0 1 5 / 1 0 1 / 5 1 0, source 0 and
destination 2. -/
theorem ManipulateTableForFSE_unreachable_witness :
    (⟨[0, 1, 5, 1, 0, 1, 5, 1, 0], 3⟩ : DistTableWrapper).WellFormed 3 ∧
    ((∀ i, i < 3 → i ≠ 0 → i ≠ 2 →
      (ManipulateTableForFSE 0 2 ⟨[0, 1, 5, 1, 0, 1, 5, 1, 0], 3⟩).cost i 0 =
        INVALID_EDGE_WEIGHT) ∧
    (∀ i, i < 3 → i ≠ 2 → i ≠ 0 →
      (ManipulateTableForFSE 0 2 ⟨[0, 1, 5, 1, 0, 1, 5, 1, 0], 3⟩).cost 2 i =
        INVALID_EDGE_WEIGHT) ∧
    (ManipulateTableForFSE 0 2 ⟨[0, 1, 5, 1, 0, 1, 5, 1, 0], 3⟩).cost 0 2 =
      INVALID_EDGE_WEIGHT) :=
  ⟨by decide,
    ManipulateTableForFSE_unreachable 3 ⟨[0, 1, 5, 1, 0, 1, 5, 1, 0], 3⟩ 0 2
      (by decide) (by decide) (by decide) (by decide)⟩

/-- Counterexample to C3 as stated: with `source_id = destination_id = 0` on the 1 × 1
table, the write of `INVALID_EDGE_WEIGHT` to (source, destination) comes last and the
cell (destination, source) is not `0`. -/
theorem ManipulateTableForFSE_fused_zero_fails :
    (⟨[0], 1⟩ : DistTableWrapper).WellFormed 1 ∧ (0 : Nat) < 1 ∧
    (ManipulateTableForFSE 0 0 ⟨[0], 1⟩).cost 0 0 = INVALID_EDGE_WEIGHT ∧
    (ManipulateTableForFSE 0 0 ⟨[0], 1⟩).cost 0 0 ≠ 0 := by
  decide

/-- C3 (amended): with in-range `source_id ≠ destination_id`, after
`ManipulateTableForFSE` the cell (destination, source) is `0`. -/
theorem ManipulateTableForFSE_fused_zero (n : Nat) (t : DistTableWrapper)
    (source_id destination_id : Nat) (h : t.WellFormed n) (hs : source_id < n)
    (hd : destination_id < n) (hne : source_id ≠ destination_id) :
    (ManipulateTableForFSE source_id destination_id t).cost destination_id source_id = 0 := by
  rw [ManipulateTableForFSE_cost h hs hd hd hs]
  simp [hne, Ne.symm hne]

/-- Witness of C3 (amended): the 2 × 2 table with rows 0 3 / 4 0, source 0 and
destination 1. -/
theorem ManipulateTableForFSE_fused_zero_witness :
    (⟨[0, 3, 4, 0], 2⟩ : DistTableWrapper).WellFormed 2 ∧
    (ManipulateTableForFSE 0 1 ⟨[0, 3, 4, 0], 2⟩).cost 1 0 = 0 :=
  ⟨by decide,
    ManipulateTableForFSE_fused_zero 2 ⟨[0, 3, 4, 0], 2⟩ 0 1
      (by decide) (by decide) (by decide) (by decide)⟩

/-- C4: `ManipulateTableForFSE` keeps the number of nodes and the size of the table, and
keeps every cell outside the source column and the destination row other than
(source, destination); with distinct source and destination the two diagonal cells
(source, source) and (destination, destination) keep their values too. -/
theorem ManipulateTableForFSE_frame (n : Nat) (t : DistTableWrapper)
    (source_id destination_id : Nat) (h : t.WellFormed n) (hs : source_id < n)
    (hd : destination_id < n) :
    (ManipulateTableForFSE source_id destination_id t).GetNumberOfNodes =
      t.GetNumberOfNodes ∧
    (ManipulateTableForFSE source_id destination_id t).size = t.size ∧
    (∀ r c, r < n → c < n → c ≠ source_id → r ≠ destination_id →
      ¬ (r = source_id ∧ c = destination_id) →
      (ManipulateTableForFSE source_id destination_id t).cost r c = t.cost r c) ∧
    (source_id ≠ destination_id →
      (ManipulateTableForFSE source_id destination_id t).cost source_id source_id =
        t.cost source_id source_id ∧
      (ManipulateTableForFSE source_id destination_id t).cost destination_id destination_id =
        t.cost destination_id destination_id) := by
  have hw := ManipulateTableForFSE_wellFormed h hs hd
  refine ⟨?_, ?_, fun r c hr hc h1 h2 h3 => ?_, fun hne => ⟨?_, ?_⟩⟩
  · unfold DistTableWrapper.GetNumberOfNodes
    rw [hw.1, h.1]
  · unfold DistTableWrapper.size
    rw [hw.2, h.2]
  · rw [ManipulateTableForFSE_cost h hs hd hr hc]
    simp [h1, h2, h3]
  · rw [ManipulateTableForFSE_cost h hs hd hs hs]
    simp [hne, Ne.symm hne]
  · rw [ManipulateTableForFSE_cost h hs hd hd hd]
    simp [hne, Ne.symm hne]

/-- The example of the comment in the sources: with source `a = 0` and destination
`c = 2` the "New Table" differs from the original one in column `a`, row `c` and the
cell `(a, c)` only. -/
theorem ManipulateTableForFSE_exampleTable :
    (ManipulateTableForFSE 0 2 exampleTable).table =
      [0, 15, INVALID_EDGE_WEIGHT, 34, 30,
       INVALID_EDGE_WEIGHT, 0, 25, 30, 34,
       0, INVALID_EDGE_WEIGHT, 0, INVALID_EDGE_WEIGHT, INVALID_EDGE_WEIGHT,
       INVALID_EDGE_WEIGHT, 30, 18, 0, 15,
       INVALID_EDGE_WEIGHT, 34, 32, 15, 0] := by
  decide

/-- Witness of C4: the 5 × 5 example table of the comment in the sources, with source
`a = 0` and destination `c = 2`. -/
theorem ManipulateTableForFSE_frame_witness :
    exampleTable.WellFormed 5 ∧ (0 : Nat) < 5 ∧ (2 : Nat) < 5 ∧
    ((ManipulateTableForFSE 0 2 exampleTable).GetNumberOfNodes =
      exampleTable.GetNumberOfNodes ∧
    (ManipulateTableForFSE 0 2 exampleTable).size = exampleTable.size ∧
    (∀ r c, r < 5 → c < 5 → c ≠ 0 → r ≠ 2 → ¬ (r = 0 ∧ c = 2) →
      (ManipulateTableForFSE 0 2 exampleTable).cost r c = exampleTable.cost r c) ∧
    ((0 : Nat) ≠ 2 →
      (ManipulateTableForFSE 0 2 exampleTable).cost 0 0 = exampleTable.cost 0 0 ∧
      (ManipulateTableForFSE 0 2 exampleTable).cost 2 2 = exampleTable.cost 2 2)) :=
  ⟨by decide, by decide, by decide,
    ManipulateTableForFSE_frame 5 exampleTable 0 2 (by decide) (by decide) (by decide)⟩

/-! ## The supported combinations -/

/-- C7: `IsSupportedParameterCombination` is true exactly when `roundtrip` holds or both
ends are fixed without roundtrip; every other combination is rejected. -/
theorem IsSupportedParameterCombination_iff (fixed_start fixed_end roundtrip : Bool) :
    IsSupportedParameterCombination fixed_start fixed_end roundtrip = true ↔
      (roundtrip = true ∨
        (fixed_start = true ∧ fixed_end = true ∧ roundtrip = false)) := by
  cases fixed_start <;> cases fixed_end <;> cases roundtrip <;> decide

/-! ## Orders and their costs -/

theorem perm_range_length {n : Nat} {order : List Nat} (hp : order.Perm (List.range n)) :
    order.length = n := by
  rw [hp.length_eq, List.length_range]

theorem perm_range_nodup {n : Nat} {order : List Nat} (hp : order.Perm (List.range n)) :
    order.Nodup :=
  hp.nodup_iff.mpr (List.nodup_range n)

theorem perm_range_getD_lt {n : Nat} {order : List Nat} (hp : order.Perm (List.range n))
    {i : Nat} (hi : i < n) : order.getD i 0 < n := by
  have hlen := perm_range_length hp
  have hi' : i < order.length := by omega
  rw [List.getD_eq_getElem?_getD, List.getElem?_eq_getElem hi']
  exact List.mem_range.mp (hp.subset (List.getElem_mem hi'))

theorem perm_range_getD_inj {n : Nat} {order : List Nat} (hp : order.Perm (List.range n))
    {i j : Nat} (hi : i < n) (hj : j < n) (he : order.getD i 0 = order.getD j 0) : i = j := by
  have hlen := perm_range_length hp
  have hi' : i < order.length := by omega
  have hj' : j < order.length := by omega
  rw [List.getD_eq_getElem?_getD, List.getElem?_eq_getElem hi',
    List.getD_eq_getElem?_getD, List.getElem?_eq_getElem hj'] at he
  exact ((perm_range_nodup hp).getElem_inj_iff).mp he

theorem head?_getD {order : List Nat} {a : Nat} (h : order.head? = some a) :
    order.getD 0 0 = a := by
  cases order with
  | nil => simp at h
  | cons x xs => simpa using h

theorem getLast?_getD {order : List Nat} {a : Nat} (h : order.getLast? = some a) :
    order.getD (order.length - 1) 0 = a := by
  rw [List.getLast?_eq_getElem?] at h
  rw [List.getD_eq_getElem?_getD, h]
  rfl

/-- The cost of the open path as a sum over the positions of its legs. -/
theorem pathCost_eq_sum (t : DistTableWrapper) (order : List Nat) :
    pathCost t order =
      ∑ i in Finset.range (order.length - 1),
        t.cost (order.getD i 0) (order.getD (i + 1) 0) := by
  induction order with
  | nil => simp [pathCost]
  | cons a rest ih =>
    cases rest with
    | nil => simp [pathCost]
    | cons b rest =>
      rw [pathCost, ih]
      simp only [List.length_cons, Nat.add_sub_cancel]
      rw [Finset.sum_range_succ' _ rest.length]
      simp only [List.getD_cons_succ, List.getD_cons_zero]
      rw [add_comm]

/-- The cycle cost of a non-empty order: the open path plus the closing leg. -/
theorem cycleCost_eq (t : DistTableWrapper) (order : List Nat) (h : order ≠ []) :
    cycleCost t order =
      pathCost t order + t.cost (order.getD (order.length - 1) 0) (order.getD 0 0) := by
  unfold cycleCost
  cases hl : order.getLast? with
  | none => exact absurd (List.getLast?_eq_none_iff.mp hl) h
  | some back =>
    cases hh : order.head? with
    | none => exact absurd (List.head?_eq_none_iff.mp hh) h
    | some front => simp only [getLast?_getD hl, head?_getD hh]

/-- The sum of a list as a sum over its positions. -/
theorem list_sum_eq_sum_getD (l : List Int) :
    l.sum = ∑ i in Finset.range l.length, l.getD i 0 := by
  induction l with
  | nil => simp
  | cons a l ih =>
    rw [List.sum_cons, List.length_cons, Finset.sum_range_succ', ih]
    simp only [List.getD_cons_succ, List.getD_cons_zero]
    rw [add_comm]

theorem cost_nonneg {n : Nat} {t : DistTableWrapper} (h : t.WellFormed n)
    (hnn : ∀ x ∈ t.table, 0 ≤ x) {r c : Nat} (hr : r < n) (hc : c < n) : 0 ≤ t.cost r c :=
  hnn _ ((mem_table_iff_cell h _).mpr ⟨r, c, hr, hc, rfl⟩)

/-- The order `0, 1, .., n - 1` costs no more than the sum of all cells of a table
without negative cells. -/
theorem pathCost_range_le_sum {n : Nat} {t : DistTableWrapper} (h : t.WellFormed n)
    (hnn : ∀ x ∈ t.table, 0 ≤ x) : pathCost t (List.range n) ≤ t.table.sum := by
  rw [pathCost_eq_sum, List.length_range, list_sum_eq_sum_getD, h.2]
  have hterm : ∀ i ∈ Finset.range (n - 1),
      t.cost ((List.range n).getD i 0) ((List.range n).getD (i + 1) 0) =
        t.table.getD (i * n + (i + 1)) 0 := by
    intro i hi
    have hi' : i < n - 1 := Finset.mem_range.mp hi
    have e1 : (List.range n).getD i 0 = i := by
      rw [List.getD_eq_getElem?_getD, List.getElem?_range (by omega)]; rfl
    have e2 : (List.range n).getD (i + 1) 0 = i + 1 := by
      rw [List.getD_eq_getElem?_getD, List.getElem?_range (by omega)]; rfl
    rw [e1, e2]
    unfold DistTableWrapper.cost
    rw [h.1]
  rw [Finset.sum_congr rfl hterm]
  have hinj : Set.InjOn (fun i => i * n + (i + 1)) (Finset.range (n - 1) : Set Nat) := by
    intro i hi j hj hij
    have hi' : i < n - 1 := Finset.mem_range.mp hi
    have hj' : j < n - 1 := Finset.mem_range.mp hj
    exact (flat_index_inj (by omega) (by omega) hij).1
  rw [← Finset.sum_image (f := fun k => t.table.getD k 0) hinj]
  apply Finset.sum_le_sum_of_subset_of_nonneg
  · intro k hk
    obtain ⟨i, hi, rfl⟩ := Finset.mem_image.mp hk
    have hi' : i < n - 1 := Finset.mem_range.mp hi
    exact Finset.mem_range.mpr (flat_index_lt (by omega) (by omega))
  · intro k hk _
    have hk' : k < t.table.length := by rw [h.2]; exact Finset.mem_range.mp hk
    rw [List.getD_eq_getElem?_getD, List.getElem?_eq_getElem hk']
    exact hnn _ (List.getElem_mem hk')

/-- The cells of the transformed table are not negative when those of the table are
not. -/
theorem ManipulateTableForFSE_cost_nonneg {n source_id destination_id : Nat}
    {t : DistTableWrapper} (h : t.WellFormed n) (hnn : ∀ x ∈ t.table, 0 ≤ x)
    (hs : source_id < n) (hd : destination_id < n) {r c : Nat} (hr : r < n) (hc : c < n) :
    0 ≤ (ManipulateTableForFSE source_id destination_id t).cost r c := by
  rw [ManipulateTableForFSE_cost h hs hd hr hc]
  have hinv : (0 : Int) ≤ INVALID_EDGE_WEIGHT := by decide
  have hcell := cost_nonneg h hnn hr hc
  split_ifs <;> first | exact hinv | exact hcell | exact le_refl _

/-! ## The transformed roundtrip against the open path -/

/-- Counterexample to C5 as stated: for `N = 2` the only leg of the order `[0, 1]` is
the cell (source, destination), which the transform sets to `INVALID_EDGE_WEIGHT`; the
cycle cost over the transformed table is the sentinel, the open path costs `1`. -/
theorem cycleCost_two_locations_fails :
    (⟨[0, 1, 1, 0], 2⟩ : DistTableWrapper).WellFormed 2 ∧
    IsStronglyConnectedComponent ⟨[0, 1, 1, 0], 2⟩ = true ∧
    [0, 1].Perm (List.range 2) ∧ [0, 1].head? = some 0 ∧ [0, 1].getLast? = some (2 - 1) ∧
    cycleCost (ManipulateTableForFSE 0 (2 - 1) ⟨[0, 1, 1, 0], 2⟩) [0, 1] =
      INVALID_EDGE_WEIGHT ∧
    pathCost ⟨[0, 1, 1, 0], 2⟩ [0, 1] = 1 ∧
    cycleCost (ManipulateTableForFSE 0 (2 - 1) ⟨[0, 1, 1, 0], 2⟩) [0, 1] ≠
      pathCost ⟨[0, 1, 1, 0], 2⟩ [0, 1] := by
  decide

/-- The closing leg from the destination back to the source costs `0` in the
transformed table. -/
theorem closing_leg_zero {n : Nat} {t : DistTableWrapper} (hn : 2 ≤ n)
    (h : t.WellFormed n) : (ManipulateTableForFSE 0 (n - 1) t).cost (n - 1) 0 = 0 := by
  have hd0 : n - 1 ≠ 0 := by omega
  rw [ManipulateTableForFSE_cost h (by omega) (by omega) (by omega) (by omega),
    if_neg (fun hx => hd0 hx.1), if_pos ⟨rfl, rfl⟩]

/-- With at least three locations no leg of an order from source `0` to destination
`n - 1` is rewritten by the transform. -/
theorem pathCost_transformed {n : Nat} {t : DistTableWrapper}
    {order : List Nat} (hn : 3 ≤ n) (h : t.WellFormed n)
    (hp : order.Perm (List.range n)) (hhead : order.head? = some 0)
    (hlast : order.getLast? = some (n - 1)) :
    pathCost (ManipulateTableForFSE 0 (n - 1) t) order = pathCost t order := by
  have hlen := perm_range_length hp
  have h0 : order.getD 0 0 = 0 := head?_getD hhead
  have hl : order.getD (n - 1) 0 = n - 1 := by
    have := getLast?_getD hlast
    rwa [hlen] at this
  have hs : 0 < n := by omega
  have hd : n - 1 < n := by omega
  rw [pathCost_eq_sum, pathCost_eq_sum, hlen]
  refine Finset.sum_congr rfl (fun i hi => ?_)
  have hi' : i < n - 1 := Finset.mem_range.mp hi
  have hr : order.getD i 0 < n := perm_range_getD_lt hp (by omega)
  have hc : order.getD (i + 1) 0 < n := perm_range_getD_lt hp (by omega)
  have hc0 : order.getD (i + 1) 0 ≠ 0 := by
    intro he
    have := perm_range_getD_inj hp (by omega) hs (he.trans h0.symm)
    omega
  have hrl : order.getD i 0 ≠ n - 1 := by
    intro he
    have := perm_range_getD_inj hp (by omega) hd (he.trans hl.symm)
    omega
  have hsd : ¬ (order.getD i 0 = 0 ∧ order.getD (i + 1) 0 = n - 1) := by
    rintro ⟨he1, he2⟩
    have e1 := perm_range_getD_inj hp (by omega) hs (he1.trans h0.symm)
    have e2 := perm_range_getD_inj hp (by omega) hd (he2.trans hl.symm)
    omega
  rw [ManipulateTableForFSE_cost h hs hd hr hc, if_neg hsd, if_neg (fun hx => hrl hx.1),
    if_neg (fun hx => hrl hx.2), if_neg (fun hx => hc0 hx.2)]

/-- C5 (amended): for `N ≥ 3`, source `0`, destination `N - 1` and every order that is
a permutation of `[0, N)` beginning with the source and ending with the destination, the
cycle cost of the order over the transformed table equals the cost of the open path over
the original table. -/
theorem cycleCost_ManipulateTableForFSE (n : Nat) (t : DistTableWrapper)
    (order : List Nat) (hn : 3 ≤ n) (h : t.WellFormed n)
    (hp : order.Perm (List.range n)) (hhead : order.head? = some 0)
    (hlast : order.getLast? = some (n - 1)) :
    cycleCost (ManipulateTableForFSE 0 (n - 1) t) order = pathCost t order := by
  have hlegs := pathCost_transformed hn h hp hhead hlast
  have hclose : (ManipulateTableForFSE 0 (n - 1) t).cost (n - 1) 0 = 0 :=
    closing_leg_zero (by omega) h
  unfold cycleCost
  rw [hlast, hhead]
  simp only []
  rw [hlegs, hclose, add_zero]

/-- Witness of C5 (amended): the 3 × 3 table with rows 0 1 5 / 1 0 1 / 5 1 0 and the
order `[0, 1, 2]`. -/
theorem cycleCost_ManipulateTableForFSE_witness :
    (3 ≤ 3) ∧ (⟨[0, 1, 5, 1, 0, 1, 5, 1, 0], 3⟩ : DistTableWrapper).WellFormed 3 ∧
    [0, 1, 2].Perm (List.range 3) ∧ [0, 1, 2].head? = some 0 ∧
    [0, 1, 2].getLast? = some (3 - 1) ∧
    cycleCost (ManipulateTableForFSE 0 (3 - 1) ⟨[0, 1, 5, 1, 0, 1, 5, 1, 0], 3⟩) [0, 1, 2] =
      pathCost ⟨[0, 1, 5, 1, 0, 1, 5, 1, 0], 3⟩ [0, 1, 2] :=
  ⟨by decide, by decide, by decide, by decide, by decide,
    cycleCost_ManipulateTableForFSE 3 ⟨[0, 1, 5, 1, 0, 1, 5, 1, 0], 3⟩ [0, 1, 2]
      (by decide) (by decide) (by decide) (by decide) (by decide)⟩

/-! ## The rotation of the solver's order -/

theorem std_find_lt {order : List Nat} {a : Nat} (h : a ∈ order) :
    std_find order a < order.length :=
  List.indexOf_lt_length.mpr h

theorem getD_std_find {order : List Nat} {a : Nat} (h : a ∈ order) :
    order.getD (std_find order a) 0 = a := by
  have hk := std_find_lt h
  rw [List.getD_eq_getElem?_getD, List.getElem?_eq_getElem hk]
  exact List.getElem_indexOf hk

theorem std_rotate_perm (order : List Nat) (k : Nat) : (std_rotate order k).Perm order := by
  unfold std_rotate
  exact List.perm_append_comm.trans (List.Perm.of_eq (List.take_append_drop k order))

theorem std_rotate_head? {order : List Nat} {a : Nat} (h : a ∈ order) :
    (std_rotate order (std_find order a)).head? = some a := by
  have hk := std_find_lt h
  have hne : order.drop (std_find order a) ≠ [] := by
    intro he
    have := congrArg List.length he
    simp at this
    omega
  unfold std_rotate
  rw [List.head?_append_of_ne_nil _ hne, List.head?_drop, List.getElem?_eq_getElem hk]
  exact congrArg some (List.getElem_indexOf hk)

theorem std_rotate_getLast? {order : List Nat} {k : Nat} (hk : k < order.length) :
    (std_rotate order k).getLast? =
      some (if k = 0 then order.getD (order.length - 1) 0 else order.getD (k - 1) 0) := by
  unfold std_rotate
  rw [List.getLast?_append, List.getLast?_take, List.getLast?_drop]
  by_cases h0 : k = 0
  · subst h0
    have hlt : order.length - 1 < order.length := by omega
    simp only [if_true, Option.or]
    rw [if_neg (by omega), List.getLast?_eq_getElem?, List.getD_eq_getElem?_getD,
      List.getElem?_eq_getElem hlt]
    rfl
  · have hlt : k - 1 < order.length := by omega
    rw [if_neg h0, if_neg h0, List.getD_eq_getElem?_getD, List.getElem?_eq_getElem hlt]
    rfl

/-! ## Orders of minimum cycle cost over the transformed table -/

/-- A leg into the source that does not come from the destination costs the sentinel
in the transformed table. -/
theorem ManipulateTableForFSE_into_source {n : Nat} {t : DistTableWrapper}
    (h : t.WellFormed n) (hn : 1 ≤ n) {p : Nat} (hp : p < n) (hp0 : p ≠ 0)
    (hpd : p ≠ n - 1) :
    (ManipulateTableForFSE 0 (n - 1) t).cost p 0 = INVALID_EDGE_WEIGHT := by
  rw [ManipulateTableForFSE_cost h (by omega) (by omega) hp (by omega),
    if_neg (fun hx => hp0 hx.1), if_neg (fun hx => hpd hx.1), if_neg (fun hx => hpd hx.2),
    if_pos ⟨hp0, rfl⟩]

/-- An order whose rotation to source `0` does not end with the destination pays the
sentinel on the leg into the source. -/
theorem cycleCost_ge_of_last_ne {n : Nat} {t : DistTableWrapper} {order : List Nat}
    (hn : 2 ≤ n) (h : t.WellFormed n) (hnn : ∀ x ∈ t.table, 0 ≤ x)
    (hp : order.Perm (List.range n))
    (hlast : (std_rotate order (std_find order 0)).getLast? ≠ some (n - 1)) :
    INVALID_EDGE_WEIGHT ≤ cycleCost (ManipulateTableForFSE 0 (n - 1) t) order := by
  have hlen := perm_range_length hp
  have hne : order ≠ [] := by
    intro he; rw [he] at hlen; simp at hlen; omega
  have hmem : 0 ∈ order := hp.mem_iff.mpr (List.mem_range.mpr (by omega))
  have hk : std_find order 0 < n := hlen ▸ std_find_lt hmem
  have hk0 : order.getD (std_find order 0) 0 = 0 := getD_std_find hmem
  rw [std_rotate_getLast? (hlen.symm ▸ hk), hlen] at hlast
  have hs : 0 < n := by omega
  have hd : n - 1 < n := by omega
  have hterm : ∀ i ∈ Finset.range (n - 1),
      0 ≤ (ManipulateTableForFSE 0 (n - 1) t).cost (order.getD i 0) (order.getD (i + 1) 0) := by
    intro i hi
    have hi' : i < n - 1 := Finset.mem_range.mp hi
    exact ManipulateTableForFSE_cost_nonneg h hnn hs hd
      (perm_range_getD_lt hp (by omega)) (perm_range_getD_lt hp (by omega))
  have hclose : 0 ≤ (ManipulateTableForFSE 0 (n - 1) t).cost
      (order.getD (n - 1) 0) (order.getD 0 0) :=
    ManipulateTableForFSE_cost_nonneg h hnn hs hd
      (perm_range_getD_lt hp hd) (perm_range_getD_lt hp hs)
  rw [cycleCost_eq _ _ hne, pathCost_eq_sum, hlen]
  by_cases hz : std_find order 0 = 0
  · rw [if_pos hz] at hlast
    rw [hz] at hk0
    have hp0 : order.getD (n - 1) 0 ≠ 0 := by
      intro he
      have := perm_range_getD_inj hp hd hs (he.trans hk0.symm)
      omega
    have hleg := ManipulateTableForFSE_into_source h (by omega)
      (perm_range_getD_lt hp hd) hp0 (fun he => hlast (congrArg some he))
    rw [hk0, hleg]
    have := Finset.sum_nonneg hterm
    omega
  · rw [if_neg hz] at hlast
    have hj : std_find order 0 - 1 < n - 1 := by omega
    have hp0 : order.getD (std_find order 0 - 1) 0 ≠ 0 := by
      intro he
      have := perm_range_getD_inj hp (by omega) hk (he.trans hk0.symm)
      omega
    have hleg := ManipulateTableForFSE_into_source h (by omega)
      (perm_range_getD_lt hp (by omega : std_find order 0 - 1 < n)) hp0
      (fun he => hlast (congrArg some he))
    have hsingle := Finset.single_le_sum hterm (Finset.mem_range.mpr hj)
    have hsucc : std_find order 0 - 1 + 1 = std_find order 0 := by omega
    rw [hsucc, hk0, hleg] at hsingle
    omega

/-- The order `0, 1, .., n - 1` costs less than the sentinel over the transformed table
when the sentinel exceeds the sum of all cells. -/
theorem cycleCost_range_lt {n : Nat} {t : DistTableWrapper} (hn : 3 ≤ n)
    (h : t.WellFormed n) (hnn : ∀ x ∈ t.table, 0 ≤ x)
    (hsum : t.table.sum < INVALID_EDGE_WEIGHT) :
    cycleCost (ManipulateTableForFSE 0 (n - 1) t) (List.range n) < INVALID_EDGE_WEIGHT := by
  have hhead : (List.range n).head? = some 0 := by
    rw [List.head?_eq_getElem?, List.getElem?_range (by omega)]
  have hlast : (List.range n).getLast? = some (n - 1) := by
    rw [List.getLast?_eq_getElem?, List.length_range, List.getElem?_range (by omega)]
  unfold cycleCost
  rw [hlast, hhead]
  simp only []
  rw [pathCost_transformed hn h (List.Perm.refl _) hhead hlast,
    closing_leg_zero (by omega) h, add_zero]
  exact lt_of_le_of_lt (pathCost_range_le_sum h hnn) hsum

/-- With two locations both orders rotate to `[0, 1]`. -/
theorem std_rotate_two {order : List Nat} (hp : order.Perm (List.range 2)) :
    std_rotate order (std_find order 0) = [0, 1] := by
  have hlen := perm_range_length hp
  match order, hlen with
  | [a, b], _ =>
    have ha : a < 2 := List.mem_range.mp (hp.subset (List.mem_cons_self _ _))
    have hb : b < 2 :=
      List.mem_range.mp (hp.subset (List.mem_cons_of_mem _ (List.mem_cons_self _ _)))
    have hab : a ≠ b := by
      have := perm_range_nodup hp
      simp at this
      exact this
    interval_cases a <;> interval_cases b <;> first | exact absurd rfl hab | decide

theorem rotateTrip_fixed_start (fixed_end roundtrip : Bool) (destination_id : Nat)
    (trip : List Nat) :
    rotateTrip true fixed_end roundtrip destination_id trip =
      std_rotate trip (std_find trip 0) := by
  unfold rotateTrip
  simp

/-- A permutation of `[0, 3)` from `0` to `2` is `[0, 1, 2]`. -/
theorem order_three_eq {order : List Nat} (hp : order.Perm (List.range 3))
    (hhead : order.head? = some 0) (hlast : order.getLast? = some 2) :
    order = [0, 1, 2] := by
  have hlen := perm_range_length hp
  match order, hlen with
  | [a, b, c], _ =>
    have ha : a = 0 := by simpa using hhead
    have hc : c = 2 := by simpa using hlast
    have hb : b < 3 :=
      List.mem_range.mp (hp.subset (List.mem_cons_of_mem _ (List.mem_cons_self _ _)))
    have hnd := perm_range_nodup hp
    subst ha hc
    simp at hnd
    have hb1 : b = 1 := by omega
    rw [hb1]

/-- C6: both ends fixed, no roundtrip (source `0`, destination `N - 1`). For a table of
non-negative costs whose sum stays below `INVALID_EDGE_WEIGHT` (which makes it feasible)
and every permutation of `[0, N)` of minimum cycle cost over the transformed table, the
order after the rotation of `HandleRequest` starts with the source and ends with the
destination; for `N = 3` it is `[0, 1, 2]`. -/
theorem rotateTrip_fixed_ends (n : Nat) (t : DistTableWrapper) (order : List Nat)
    (hn : 1 ≤ n) (h : t.WellFormed n) (hnn : ∀ x ∈ t.table, 0 ≤ x)
    (hsum : t.table.sum < INVALID_EDGE_WEIGHT)
    (hp : order.Perm (List.range n))
    (hmin : ∀ other : List Nat, other.Perm (List.range n) →
      cycleCost (ManipulateTableForFSE 0 (n - 1) t) order ≤
        cycleCost (ManipulateTableForFSE 0 (n - 1) t) other) :
    (rotateTrip true true false (n - 1) order).head? = some 0 ∧
    (rotateTrip true true false (n - 1) order).getLast? = some (n - 1) ∧
    (n = 3 → rotateTrip true true false (n - 1) order = [0, 1, 2]) := by
  rw [rotateTrip_fixed_start]
  have hmem : 0 ∈ order := hp.mem_iff.mpr (List.mem_range.mpr (by omega))
  have hhead := std_rotate_head? hmem
  have hlast : (std_rotate order (std_find order 0)).getLast? = some (n - 1) := by
    rcases Nat.lt_or_ge n 3 with hlt | hge
    · rcases Nat.lt_or_ge n 2 with hlt2 | hge2
      · have h1 : n = 1 := by omega
        subst h1
        have : order = [0] := List.perm_singleton.mp hp
        subst this
        decide
      · have h2 : n = 2 := by omega
        subst h2
        rw [std_rotate_two hp]
        rfl
    · by_contra hne
      have hbad := cycleCost_ge_of_last_ne (by omega) h hnn hp hne
      have hgood := cycleCost_range_lt hge h hnn hsum
      have := hmin (List.range n) (List.Perm.refl _)
      omega
  refine ⟨hhead, hlast, fun h3 => ?_⟩
  subst h3
  exact order_three_eq ((std_rotate_perm order _).trans hp) hhead hlast

/-- Witness of C6: the example of the spec, `N = 3` with `cost(0,1) = 1`,
`cost(1,2) = 1`, `cost(0,2) = 5`, and the order `[1, 2, 0]`, a rotation of the optimum
as a solver may return it. -/
theorem rotateTrip_fixed_ends_witness :
    (⟨[0, 1, 5, 1, 0, 1, 5, 1, 0], 3⟩ : DistTableWrapper).WellFormed 3 ∧
    IsStronglyConnectedComponent ⟨[0, 1, 5, 1, 0, 1, 5, 1, 0], 3⟩ = true ∧
    [1, 2, 0].Perm (List.range 3) ∧
    ((rotateTrip true true false (3 - 1) [1, 2, 0]).head? = some 0 ∧
    (rotateTrip true true false (3 - 1) [1, 2, 0]).getLast? = some (3 - 1) ∧
    (3 = 3 → rotateTrip true true false (3 - 1) [1, 2, 0] = [0, 1, 2])) :=
  ⟨by decide, by decide, by decide,
    rotateTrip_fixed_ends 3 ⟨[0, 1, 5, 1, 0, 1, 5, 1, 0], 3⟩ [1, 2, 0]
      (by decide) (by decide) (by decide) (by decide) (by decide)
      (fun other hp => by
        have hlen := perm_range_length hp
        have hnd := perm_range_nodup hp
        have hmem : ∀ x ∈ other, x < 3 := fun x hx => List.mem_range.mp (hp.subset hx)
        match other, hlen with
        | [a, b, c], _ =>
          have ha : a < 3 := hmem a (by simp)
          have hb : b < 3 := hmem b (by simp)
          have hc : c < 3 := hmem c (by simp)
          simp at hnd
          obtain ⟨⟨hab, hac⟩, hbc⟩ := hnd
          interval_cases a <;> interval_cases b <;> interval_cases c <;>
            first | exact absurd rfl hab | exact absurd rfl hac | exact absurd rfl hbc | decide)⟩

/-! ## The validations of `HandleRequest` -/

theorem size_t_pred_eq {n : Nat} (h1 : 1 ≤ n) (h64 : n < 2 ^ 64) : size_t_pred n = n - 1 := by
  unfold size_t_pred SIZE_MAX
  omega

theorem static_cast_int_eq {n : Nat} (h : n < 2 ^ 31) : static_cast_int n = (n : Int) := by
  unfold static_cast_int
  have hmod : n % 2 ^ 32 = n := Nat.mod_eq_of_lt (by omega)
  rw [hmod, if_pos h]

/-- With at least one location the check of `source_id` and `destination_id`
(trip.hpp 161-165) lets the request through. -/
theorem index_check_passes (parameters : TripParameters)
    (h1 : 1 ≤ parameters.number_of_coordinates)
    (h64 : parameters.number_of_coordinates < 2 ^ 64) :
    (fixedStart parameters && fixedEnd parameters &&
      (decide (sourceId parameters ≥ parameters.number_of_coordinates) ||
        decide (destinationId parameters ≥ parameters.number_of_coordinates))) = false := by
  rw [Bool.eq_false_iff]
  intro hc
  simp only [Bool.and_eq_true, Bool.or_eq_true, decide_eq_true_eq] at hc
  obtain ⟨⟨hfs, hfe⟩, hor⟩ := hc
  unfold fixedStart at hfs
  unfold fixedEnd at hfe
  rw [beq_iff_eq] at hfs hfe
  rw [hfs, hfe, size_t_pred_eq h1 h64] at hor
  omega

/-- C9: a request whose combination of `fixed_start`, `fixed_end` and `roundtrip` is not
supported gets `NotImplemented`, whatever the number of locations, the configured
maximum and the answers of the collaborators. -/
theorem HandleRequest_not_supported (env : Collaborators) (parameters : TripParameters)
    (h : IsSupportedParameterCombination (fixedStart parameters) (fixedEnd parameters)
      parameters.roundtrip = false) :
    HandleRequest env parameters =
      Outcome.error "NotImplemented" "This request is not supported" := by
  unfold HandleRequest
  simp only [h, Bool.not_false, if_true]

/-- Witness of C9: three locations, no fixed end point, no roundtrip. -/
theorem HandleRequest_not_supported_witness :
    IsSupportedParameterCombination (fixedStart ⟨3, SourceType.Any, DestinationType.Any, false⟩)
      (fixedEnd ⟨3, SourceType.Any, DestinationType.Any, false⟩) false = false ∧
    HandleRequest
      ⟨0, true, 3, [10, 11, 12], [0, 1, 5, 1, 0, 1, 5, 1, 0], fun _ _ => [0, 1, 2],
        fun _ _ => [0, 1, 2]⟩
      ⟨3, SourceType.Any, DestinationType.Any, false⟩ =
      Outcome.error "NotImplemented" "This request is not supported" :=
  ⟨by decide,
    HandleRequest_not_supported
      ⟨0, true, 3, [10, 11, 12], [0, 1, 5, 1, 0, 1, 5, 1, 0], fun _ _ => [0, 1, 2],
        fun _ _ => [0, 1, 2]⟩
      ⟨3, SourceType.Any, DestinationType.Any, false⟩ (by decide)⟩

/-- Counterexample to C8 as stated: three locations with `cost(1,2)` unreachable and all
else finite, no fixed end point and no roundtrip: the combination check comes first and
the request gets `NotImplemented`, not `NoTrips`. -/
theorem HandleRequest_unreachable_not_supported :
    (⟨[0, 1, 5, 1, 0, INVALID_EDGE_WEIGHT, 5, 1, 0], 3⟩ : DistTableWrapper).cost 1 2 =
      INVALID_EDGE_WEIGHT ∧
    HandleRequest
      ⟨0, true, 3, [10, 11, 12], [0, 1, 5, 1, 0, INVALID_EDGE_WEIGHT, 5, 1, 0],
        fun _ _ => [0, 1, 2], fun _ _ => [0, 1, 2]⟩
      ⟨3, SourceType.Any, DestinationType.Any, false⟩ =
      Outcome.error "NotImplemented" "This request is not supported" ∧
    (HandleRequest
      ⟨0, true, 3, [10, 11, 12], [0, 1, 5, 1, 0, INVALID_EDGE_WEIGHT, 5, 1, 0],
        fun _ _ => [0, 1, 2], fun _ _ => [0, 1, 2]⟩
      ⟨3, SourceType.Any, DestinationType.Any, false⟩).code ≠ some "NoTrips" := by
  decide

/-- C8 (amended): a request with at least one location and a supported combination that
passes the size limit, the coordinate check and the resolution of its locations, and
whose table of durations holds `INVALID_EDGE_WEIGHT` somewhere, gets `NoTrips`. -/
theorem HandleRequest_unreachable (env : Collaborators) (parameters : TripParameters)
    (h1 : 1 ≤ parameters.number_of_coordinates)
    (h64 : parameters.number_of_coordinates < 2 ^ 64)
    (hsupp : IsSupportedParameterCombination (fixedStart parameters) (fixedEnd parameters)
      parameters.roundtrip = true)
    (hsize : ¬ (env.max_locations_trip > 0 ∧
      static_cast_int parameters.number_of_coordinates > env.max_locations_trip))
    (hcoord : env.coordinates_valid = true)
    (hphantom : env.phantom_node_pairs_size = parameters.number_of_coordinates)
    (hmem : INVALID_EDGE_WEIGHT ∈ env.durations) :
    HandleRequest env parameters =
      Outcome.error "NoTrips" "No trip visiting all destinations possible." := by
  have hscc : IsStronglyConnectedComponent
      ⟨env.durations, parameters.number_of_coordinates⟩ = false := by
    rw [← Bool.not_eq_true, IsStronglyConnectedComponent_iff_not_mem]
    exact fun hno => hno hmem
  have hlen : env.durations.length ≠ 0 := by
    intro h0
    rw [List.length_eq_zero] at h0
    rw [h0] at hmem
    simp at hmem
  have hsize' : (decide (env.max_locations_trip > 0) &&
      decide (static_cast_int parameters.number_of_coordinates > env.max_locations_trip)) =
      false := by
    rw [Bool.eq_false_iff]
    intro hc
    simp only [Bool.and_eq_true, decide_eq_true_eq] at hc
    exact hsize hc
  unfold HandleRequest
  simp only [hsupp, hsize', hcoord, hphantom, index_check_passes parameters h1 h64, hscc,
    DistTableWrapper.size, bne_self_eq_false, beq_iff_eq, hlen, Bool.not_true, Bool.not_false,
    if_true, if_false, Bool.false_eq_true]

/-- Witness of C8 (amended): three locations, both ends fixed, no roundtrip, no limit,
`cost(1,2)` unreachable. -/
theorem HandleRequest_unreachable_witness :
    IsSupportedParameterCombination
      (fixedStart ⟨3, SourceType.First, DestinationType.Last, false⟩)
      (fixedEnd ⟨3, SourceType.First, DestinationType.Last, false⟩) false = true ∧
    HandleRequest
      ⟨0, true, 3, [10, 11, 12], [0, 1, 5, 1, 0, INVALID_EDGE_WEIGHT, 5, 1, 0],
        fun _ _ => [0, 1, 2], fun _ _ => [0, 1, 2]⟩
      ⟨3, SourceType.First, DestinationType.Last, false⟩ =
      Outcome.error "NoTrips" "No trip visiting all destinations possible." :=
  ⟨by decide,
    HandleRequest_unreachable
      ⟨0, true, 3, [10, 11, 12], [0, 1, 5, 1, 0, INVALID_EDGE_WEIGHT, 5, 1, 0],
        fun _ _ => [0, 1, 2], fun _ _ => [0, 1, 2]⟩
      ⟨3, SourceType.First, DestinationType.Last, false⟩
      (by decide) (by decide) (by decide) (by decide) (by decide) (by decide) (by decide)⟩

/-- C10: for a request with a supported combination and a number of locations that fits
a signed 32-bit integer, `HandleRequest` answers `TooBig` exactly when the configured
maximum is positive and exceeded; with a maximum of `0` the answer is never `TooBig`. -/
theorem HandleRequest_TooBig_iff (env : Collaborators) (parameters : TripParameters)
    (hsupp : IsSupportedParameterCombination (fixedStart parameters) (fixedEnd parameters)
      parameters.roundtrip = true)
    (h31 : parameters.number_of_coordinates < 2 ^ 31) :
    ((HandleRequest env parameters).code = some "TooBig" ↔
      (0 < env.max_locations_trip ∧
        env.max_locations_trip < (parameters.number_of_coordinates : Int))) ∧
    (env.max_locations_trip = 0 → (HandleRequest env parameters).code ≠ some "TooBig") := by
  have key : (HandleRequest env parameters).code = some "TooBig" ↔
      (0 < env.max_locations_trip ∧
        env.max_locations_trip < (parameters.number_of_coordinates : Int)) := by
    unfold HandleRequest
    simp only [hsupp, Bool.not_true, Bool.false_eq_true, if_false, static_cast_int_eq h31]
    by_cases hc : 0 < env.max_locations_trip ∧
        env.max_locations_trip < (parameters.number_of_coordinates : Int)
    · have hd : (decide (env.max_locations_trip > 0) &&
          decide ((parameters.number_of_coordinates : Int) > env.max_locations_trip)) =
          true := by
        simp only [Bool.and_eq_true, decide_eq_true_eq]
        exact hc
      rw [if_pos hd]
      exact iff_of_true rfl hc
    · have hd : ¬ ((decide (env.max_locations_trip > 0) &&
          decide ((parameters.number_of_coordinates : Int) > env.max_locations_trip)) =
          true) := by
        simp only [Bool.and_eq_true, decide_eq_true_eq]
        exact hc
      rw [if_neg hd]
      refine iff_of_false ?_ hc
      split_ifs <;> first
        | (simp [Outcome.code]; done)
        | (split <;> simp [Outcome.code])
  refine ⟨key, fun h0 hcode => ?_⟩
  have := key.mp hcode
  omega

/-- Witness of C10: four locations against a maximum of three. -/
theorem HandleRequest_TooBig_iff_witness :
    ((HandleRequest
      ⟨3, true, 4, [10, 11, 12, 13], [], fun _ _ => [], fun _ _ => []⟩
      ⟨4, SourceType.First, DestinationType.Last, false⟩).code = some "TooBig" ↔
      ((0 : Int) < 3 ∧ (3 : Int) < ((4 : Nat) : Int))) ∧
    ((3 : Int) = 0 →
      (HandleRequest
        ⟨3, true, 4, [10, 11, 12, 13], [], fun _ _ => [], fun _ _ => []⟩
        ⟨4, SourceType.First, DestinationType.Last, false⟩).code ≠ some "TooBig") :=
  HandleRequest_TooBig_iff
    ⟨3, true, 4, [10, 11, 12, 13], [], fun _ _ => [], fun _ _ => []⟩
    ⟨4, SourceType.First, DestinationType.Last, false⟩ (by decide) (by decide)

/-- Counterexample to C11 as stated: a supported combination, no limit on the number of
locations, two of three locations resolved, but a coordinate that fails
`CheckAllCoordinates`: the answer is `InvalidValue`, not `NoSegment`. -/
theorem HandleRequest_fewer_points_invalid_coordinate :
    IsSupportedParameterCombination
      (fixedStart ⟨3, SourceType.First, DestinationType.Last, false⟩)
      (fixedEnd ⟨3, SourceType.First, DestinationType.Last, false⟩) false = true ∧
    (2 : Nat) < 3 ∧
    HandleRequest
      ⟨0, false, 2, [10, 11], [], fun _ _ => [], fun _ _ => []⟩
      ⟨3, SourceType.First, DestinationType.Last, false⟩ =
      Outcome.error "InvalidValue" "Invalid coordinate value." ∧
    (HandleRequest
      ⟨0, false, 2, [10, 11], [], fun _ _ => [], fun _ _ => []⟩
      ⟨3, SourceType.First, DestinationType.Last, false⟩).code ≠ some "NoSegment" := by
  decide

/-- C11 (amended): a request with a supported combination, a number of locations within
the configured maximum and coordinates that pass `CheckAllCoordinates`, for which the
resolution yields fewer points than locations, gets `NoSegment` and no other error. -/
theorem HandleRequest_fewer_points (env : Collaborators) (parameters : TripParameters)
    (hsupp : IsSupportedParameterCombination (fixedStart parameters) (fixedEnd parameters)
      parameters.roundtrip = true)
    (hsize : ¬ (env.max_locations_trip > 0 ∧
      static_cast_int parameters.number_of_coordinates > env.max_locations_trip))
    (hcoord : env.coordinates_valid = true)
    (hfewer : env.phantom_node_pairs_size < parameters.number_of_coordinates) :
    HandleRequest env parameters =
      Outcome.error "NoSegment"
        ("Could not find a matching segment for coordinate " ++
          toString env.phantom_node_pairs_size) ∧
    (HandleRequest env parameters).code = some "NoSegment" := by
  have hsize' : (decide (env.max_locations_trip > 0) &&
      decide (static_cast_int parameters.number_of_coordinates > env.max_locations_trip)) =
      false := by
    rw [Bool.eq_false_iff]
    intro hc
    simp only [Bool.and_eq_true, decide_eq_true_eq] at hc
    exact hsize hc
  have hne : (env.phantom_node_pairs_size != parameters.number_of_coordinates) = true := by
    rw [bne_iff_ne]
    omega
  have hval : HandleRequest env parameters =
      Outcome.error "NoSegment"
        ("Could not find a matching segment for coordinate " ++
          toString env.phantom_node_pairs_size) := by
    unfold HandleRequest
    simp only [hsupp, hsize', hcoord, hne, Bool.not_true, Bool.false_eq_true, if_true,
      if_false]
  exact ⟨hval, by rw [hval]; rfl⟩

/-- Witness of C11 (amended): three locations, two of them resolved. -/
theorem HandleRequest_fewer_points_witness :
    IsSupportedParameterCombination
      (fixedStart ⟨3, SourceType.First, DestinationType.Last, false⟩)
      (fixedEnd ⟨3, SourceType.First, DestinationType.Last, false⟩) false = true ∧
    (HandleRequest
      ⟨0, true, 2, [10, 11], [], fun _ _ => [], fun _ _ => []⟩
      ⟨3, SourceType.First, DestinationType.Last, false⟩ =
      Outcome.error "NoSegment"
        ("Could not find a matching segment for coordinate " ++ toString (2 : Nat)) ∧
    (HandleRequest
      ⟨0, true, 2, [10, 11], [], fun _ _ => [], fun _ _ => []⟩
      ⟨3, SourceType.First, DestinationType.Last, false⟩).code = some "NoSegment") :=
  ⟨by decide,
    HandleRequest_fewer_points
      ⟨0, true, 2, [10, 11], [], fun _ _ => [], fun _ _ => []⟩
      ⟨3, SourceType.First, DestinationType.Last, false⟩
      (by decide) (by decide) (by decide) (by decide)⟩

/-! ## The rotation to the first location of the result -/

/-- C12: for `N ≥ 1` and a solver output that is a permutation of `[0, N)`: when the end
is not fixed or the start is fixed, the rotated order starts with `0`; when the end is
fixed, the start is not and a roundtrip is requested, it starts with the destination
`N - 1`; in both cases `std::find` does not return the end of the trip. -/
theorem rotateTrip_first (n : Nat) (trip : List Nat) (fixed_start fixed_end roundtrip : Bool)
    (hn : 1 ≤ n) (hp : trip.Perm (List.range n)) :
    ((fixed_end = false ∨ fixed_start = true) →
      (rotateTrip fixed_start fixed_end roundtrip (n - 1) trip).head? = some 0 ∧
      std_find trip 0 ≠ trip.length) ∧
    ((fixed_end = true ∧ fixed_start = false ∧ roundtrip = true) →
      (rotateTrip fixed_start fixed_end roundtrip (n - 1) trip).head? = some (n - 1) ∧
      std_find trip (n - 1) ≠ trip.length) := by
  have hmem0 : 0 ∈ trip := hp.mem_iff.mpr (List.mem_range.mpr (by omega))
  have hmemd : n - 1 ∈ trip := hp.mem_iff.mpr (List.mem_range.mpr (by omega))
  constructor
  · intro hc
    have hcond : (!fixed_end || fixed_start) = true := by
      rcases hc with h | h <;> simp [h]
    refine ⟨?_, Nat.ne_of_lt (std_find_lt hmem0)⟩
    unfold rotateTrip
    rw [if_pos hcond]
    exact std_rotate_head? hmem0
  · rintro ⟨he, hs, hr⟩
    subst he hs hr
    refine ⟨?_, Nat.ne_of_lt (std_find_lt hmemd)⟩
    unfold rotateTrip
    simp only [Bool.not_true, Bool.or_self, Bool.false_eq_true, if_false, Bool.not_false,
      Bool.and_self, if_true]
    exact std_rotate_head? hmemd

/-- Witness of C12: the order `[1, 2, 0]` of three locations with a free start. -/
theorem rotateTrip_first_witness :
    [1, 2, 0].Perm (List.range 3) ∧
    (((false = false ∨ false = true) →
      (rotateTrip false false true (3 - 1) [1, 2, 0]).head? = some 0 ∧
      std_find [1, 2, 0] 0 ≠ [1, 2, 0].length) ∧
    ((false = true ∧ false = false ∧ true = true) →
      (rotateTrip false false true (3 - 1) [1, 2, 0]).head? = some (3 - 1) ∧
      std_find [1, 2, 0] (3 - 1) ≠ [1, 2, 0].length)) :=
  ⟨by decide, rotateTrip_first 3 [1, 2, 0] false false true (by decide) (by decide)⟩

/-- The rotation of `[1, 2, 0]` for a fixed end, a free start and a roundtrip: the
destination `2` comes first. -/
theorem rotateTrip_fixed_end_example :
    rotateTrip false true true 2 [1, 2, 0] = [2, 0, 1] := by
  decide

theorem std_find_le (trip : List Nat) (a : Nat) : std_find trip a ≤ trip.length :=
  List.indexOf_le_length

/-- Position `i` of a rotated list holds what position `i + k` (cyclically) held. -/
theorem std_rotate_getD {trip : List Nat} {k i : Nat} (hk : k ≤ trip.length)
    (hi : i < trip.length) :
    (std_rotate trip k).getD i 0 = trip.getD ((i + k) % trip.length) 0 := by
  unfold std_rotate
  rw [List.getD_eq_getElem?_getD, List.getD_eq_getElem?_getD]
  by_cases hik : i < trip.length - k
  · have hmod : (i + k) % trip.length = k + i := by
      rw [Nat.mod_eq_of_lt (by omega)]; omega
    rw [List.getElem?_append_left (by rw [List.length_drop]; exact hik),
      List.getElem?_drop, hmod]
  · have hmod : (i + k) % trip.length = i - (trip.length - k) := by
      have h1 : i + k = (i - (trip.length - k)) + trip.length := by omega
      rw [h1, Nat.add_mod_right, Nat.mod_eq_of_lt (by omega)]
    rw [List.getElem?_append_right (by rw [List.length_drop]; omega), List.length_drop,
      List.getElem?_take_of_lt (by omega), hmod]

theorem std_rotate_zero (trip : List Nat) : std_rotate trip 0 = trip := by
  unfold std_rotate
  simp

/-- The rotation of `HandleRequest` is `std::rotate` about some position of the trip. -/
theorem rotateTrip_eq_std_rotate (fixed_start fixed_end roundtrip : Bool)
    (destination_id : Nat) (trip : List Nat) :
    ∃ k, k ≤ trip.length ∧
      rotateTrip fixed_start fixed_end roundtrip destination_id trip = std_rotate trip k := by
  unfold rotateTrip
  split_ifs
  · exact ⟨_, std_find_le trip 0, rfl⟩
  · exact ⟨_, std_find_le trip destination_id, rfl⟩
  · exact ⟨0, Nat.zero_le _, (std_rotate_zero trip).symm⟩

/-- C13: for every order and every combination of the flags the rotated order is the
suffix of the solver's order from some position `k` followed by its first `k` elements;
it has the same length and the same elements (each once when the order has no
duplicates), and position `i` and its cyclic successor hold what position `i + k` and
its cyclic successor held, every position of the solver's order being reached. -/
theorem rotateTrip_cyclic_rotation (fixed_start fixed_end roundtrip : Bool)
    (destination_id : Nat) (trip : List Nat) :
    ∃ k, k ≤ trip.length ∧
      rotateTrip fixed_start fixed_end roundtrip destination_id trip =
        trip.drop k ++ trip.take k ∧
      (rotateTrip fixed_start fixed_end roundtrip destination_id trip).length =
        trip.length ∧
      (rotateTrip fixed_start fixed_end roundtrip destination_id trip).Perm trip ∧
      (trip.Nodup →
        (rotateTrip fixed_start fixed_end roundtrip destination_id trip).Nodup) ∧
      (∀ i, i < trip.length →
        (rotateTrip fixed_start fixed_end roundtrip destination_id trip).getD i 0 =
          trip.getD ((i + k) % trip.length) 0 ∧
        (rotateTrip fixed_start fixed_end roundtrip destination_id trip).getD
            ((i + 1) % trip.length) 0 =
          trip.getD (((i + k) % trip.length + 1) % trip.length) 0) ∧
      (∀ j, j < trip.length → ∃ i, i < trip.length ∧ (i + k) % trip.length = j) := by
  obtain ⟨k, hk, hrot⟩ :=
    rotateTrip_eq_std_rotate fixed_start fixed_end roundtrip destination_id trip
  have hperm := std_rotate_perm trip k
  refine ⟨k, hk, ?_, ?_, ?_, ?_, ?_, ?_⟩
  · rw [hrot]; rfl
  · rw [hrot]; exact hperm.length_eq
  · rw [hrot]; exact hperm
  · intro hnd
    rw [hrot]
    exact hperm.nodup_iff.mpr hnd
  · intro i hi
    have hpos : 0 < trip.length := by omega
    have hsucc : (i + 1) % trip.length < trip.length := Nat.mod_lt _ hpos
    rw [hrot, std_rotate_getD hk hi, std_rotate_getD hk hsucc]
    refine ⟨rfl, ?_⟩
    have he : ((i + 1) % trip.length + k) % trip.length =
        ((i + k) % trip.length + 1) % trip.length := by
      rw [Nat.mod_add_mod, Nat.mod_add_mod]
      congr 1
      omega
    rw [he]
  · intro j hj
    by_cases hjk : k ≤ j
    · exact ⟨j - k, by omega, by
        have h1 : j - k + k = j := by omega
        rw [h1, Nat.mod_eq_of_lt hj]⟩
    · refine ⟨j + trip.length - k, by omega, ?_⟩
      have h1 : j + trip.length - k + k = j + trip.length := by omega
      rw [h1, Nat.add_mod_right, Nat.mod_eq_of_lt hj]

/-- Witness of C13: the order `[1, 2, 0]` with both ends fixed is rotated about
position `2`. -/
theorem rotateTrip_cyclic_rotation_witness :
    rotateTrip true true false 2 [1, 2, 0] = [0, 1, 2] ∧
    ∃ k, k ≤ [1, 2, 0].length ∧
      rotateTrip true true false 2 [1, 2, 0] = [1, 2, 0].drop k ++ [1, 2, 0].take k ∧
      (rotateTrip true true false 2 [1, 2, 0]).length = [1, 2, 0].length ∧
      (rotateTrip true true false 2 [1, 2, 0]).Perm [1, 2, 0] ∧
      ([1, 2, 0].Nodup → (rotateTrip true true false 2 [1, 2, 0]).Nodup) ∧
      (∀ i, i < [1, 2, 0].length →
        (rotateTrip true true false 2 [1, 2, 0]).getD i 0 =
          [1, 2, 0].getD ((i + k) % [1, 2, 0].length) 0 ∧
        (rotateTrip true true false 2 [1, 2, 0]).getD ((i + 1) % [1, 2, 0].length) 0 =
          [1, 2, 0].getD (((i + k) % [1, 2, 0].length + 1) % [1, 2, 0].length) 0) ∧
      (∀ j, j < [1, 2, 0].length → ∃ i, i < [1, 2, 0].length ∧
        (i + k) % [1, 2, 0].length = j) :=
  ⟨by decide, rotateTrip_cyclic_rotation true true false 2 [1, 2, 0]⟩

/-! ## The segments of `ComputeRoute` -/

theorem getD_of_getElem? {l : List Nat} {i a : Nat} (h : l[i]? = some a) :
    l.getD i 0 = a := by
  rw [List.getD_eq_getElem?_getD, h]
  rfl

/-- When the first loop of `ComputeRoute` reads inside the vector of snapped points, it
builds one segment per pair of neighbours, from the one to the next. -/
theorem routeLegs_some (snapped_phantoms : List PhantomNode) (trip : List Nat) :
    ∀ segs, routeLegs snapped_phantoms trip = some segs →
      segs.length = trip.length - 1 ∧
      ∀ k, k + 1 < trip.length →
        segs[k]? = some (snapped_phantoms.getD (trip.getD k 0) 0,
          snapped_phantoms.getD (trip.getD (k + 1) 0) 0) := by
  induction trip with
  | nil =>
    intro segs h
    simp only [routeLegs, Option.some.injEq] at h
    subst h
    exact ⟨rfl, fun k hk => by simp at hk⟩
  | cons a rest ih =>
    cases rest with
    | nil =>
      intro segs h
      simp only [routeLegs, Option.some.injEq] at h
      subst h
      exact ⟨rfl, fun k hk => by simp at hk⟩
    | cons b rest =>
      intro segs h
      rw [routeLegs] at h
      split at h
      · rename_i pa pb tail ha hb htail
        simp only [Option.some.injEq] at h
        subst h
        obtain ⟨hlen, hsegs⟩ := ih tail htail
        refine ⟨by simp [hlen], fun k hk => ?_⟩
        cases k with
        | zero =>
          simp only [List.getElem?_cons_zero, List.getD_cons_zero, List.getD_cons_succ,
            getD_of_getElem? ha, getD_of_getElem? hb]
        | succ k =>
          have hk' : k + 1 < (b :: rest).length := by
            simp only [List.length_cons] at hk ⊢
            omega
          simp only [List.getElem?_cons_succ, List.getD_cons_succ]
          exact hsegs k hk'
      · exact absurd h (by simp)

/-- The first loop of `ComputeRoute` reads inside the vector of snapped points when
every element of the trip is an index of it. -/
theorem routeLegs_defined (snapped_phantoms : List PhantomNode) (trip : List Nat)
    (hin : ∀ x ∈ trip, x < snapped_phantoms.length) :
    ∃ segs, routeLegs snapped_phantoms trip = some segs := by
  induction trip with
  | nil => exact ⟨[], rfl⟩
  | cons a rest ih =>
    cases rest with
    | nil => exact ⟨[], rfl⟩
    | cons b rest =>
      have ha : a < snapped_phantoms.length := hin a (by simp)
      have hb : b < snapped_phantoms.length := hin b (by simp)
      obtain ⟨tail, htail⟩ := ih (fun x hx => hin x (List.mem_cons_of_mem _ hx))
      refine ⟨(snapped_phantoms[a], snapped_phantoms[b]) :: tail, ?_⟩
      rw [routeLegs, List.getElem?_eq_getElem ha, List.getElem?_eq_getElem hb, htail]

/-- A result of `ComputeRoute` is made of the segments of the first loop, followed for a
roundtrip by the segment from the last element of the trip back to the first. -/
theorem ComputeRoute_some {snapped_phantoms : List PhantomNode} {trip : List Nat}
    {roundtrip : Bool} {segs : List PhantomNodes}
    (h : ComputeRoute snapped_phantoms trip roundtrip = some segs) :
    ∃ legs, routeLegs snapped_phantoms trip = some legs ∧
      ((roundtrip = false ∧ segs = legs) ∨
        (roundtrip = true ∧ ∃ back front, trip.getLast? = some back ∧
          trip.head? = some front ∧
          segs = legs ++ [(snapped_phantoms.getD back 0, snapped_phantoms.getD front 0)])) := by
  unfold ComputeRoute at h
  split at h
  · exact absurd h (by simp)
  · rename_i legs hlegs
    refine ⟨legs, hlegs, ?_⟩
    cases roundtrip with
    | false =>
      simp only [Bool.false_eq_true, if_false, Option.some.injEq] at h
      exact Or.inl ⟨rfl, h.symm⟩
    | true =>
      simp only [if_true] at h
      split at h
      · rename_i back front hback hfront
        split at h
        · rename_i pa pb ha hb
          simp only [Option.some.injEq] at h
          refine Or.inr ⟨rfl, back, front, hback, hfront, ?_⟩
          rw [← h, getD_of_getElem? ha, getD_of_getElem? hb]
        · exact absurd h (by simp)
      · exact absurd h (by simp)

/-- `ComputeRoute` reads inside the vector of snapped points when the trip is not empty
and each of its elements is an index of the vector. -/
theorem ComputeRoute_defined {snapped_phantoms : List PhantomNode} {trip : List Nat}
    (roundtrip : Bool) (hne : trip ≠ [])
    (hin : ∀ x ∈ trip, x < snapped_phantoms.length) :
    ∃ segs, ComputeRoute snapped_phantoms trip roundtrip = some segs := by
  obtain ⟨legs, hlegs⟩ := routeLegs_defined snapped_phantoms trip hin
  unfold ComputeRoute
  rw [hlegs]
  cases roundtrip with
  | false => exact ⟨legs, by simp⟩
  | true =>
    have hlast : trip.getLast? = some (trip.getLast hne) := List.getLast?_eq_getLast _ hne
    have hhead : trip.head? = some (trip.head hne) := List.head?_eq_head hne
    have hb : trip.getLast hne < snapped_phantoms.length := hin _ (List.getLast_mem hne)
    have hf : trip.head hne < snapped_phantoms.length := hin _ (List.head_mem hne)
    refine ⟨legs ++ [(snapped_phantoms[trip.getLast hne], snapped_phantoms[trip.head hne])], ?_⟩
    simp only [if_true, hlast, hhead, List.getElem?_eq_getElem hb, List.getElem?_eq_getElem hf]

/-- The number of segments of a result of `ComputeRoute`. -/
theorem ComputeRoute_length {snapped_phantoms : List PhantomNode} {trip : List Nat}
    {roundtrip : Bool} {segs : List PhantomNodes}
    (h : ComputeRoute snapped_phantoms trip roundtrip = some segs) :
    segs.length = if roundtrip = true then trip.length else trip.length - 1 := by
  obtain ⟨legs, hlegs, hcase⟩ := ComputeRoute_some h
  have hlen := (routeLegs_some snapped_phantoms trip legs hlegs).1
  rcases hcase with ⟨hr, hs⟩ | ⟨hr, back, front, hback, _, hs⟩
  · rw [hs, hlen, hr]
    rfl
  · have hne : trip ≠ [] := by
      intro he
      rw [he] at hback
      simp at hback
    have hpos : 0 < trip.length := List.length_pos.mpr hne
    rw [hs, hr, List.length_append, hlen]
    simp only [List.length_singleton, if_true]
    omega

/-- C14: for a non-empty trip `ComputeRoute` builds as many segments as the trip has
elements for a roundtrip and one less otherwise: this holds of every result, and there
is a result whenever the elements of the trip are indices of the snapped points. So the
assertions on the number of segments (trip.hpp 100, 105) hold. -/
theorem ComputeRoute_segment_count (snapped_phantoms : List PhantomNode) (trip : List Nat)
    (roundtrip : Bool) (hne : trip ≠ []) :
    (∀ segs, ComputeRoute snapped_phantoms trip roundtrip = some segs →
      segs.length = if roundtrip = true then trip.length else trip.length - 1) ∧
    ((∀ x ∈ trip, x < snapped_phantoms.length) →
      ∃ segs, ComputeRoute snapped_phantoms trip roundtrip = some segs ∧
        segs.length = if roundtrip = true then trip.length else trip.length - 1) := by
  refine ⟨fun segs h => ComputeRoute_length h, fun hin => ?_⟩
  obtain ⟨segs, hsegs⟩ := ComputeRoute_defined roundtrip hne hin
  exact ⟨segs, hsegs, ComputeRoute_length hsegs⟩

/-- Witness of C14: the trip `[0, 2, 1]` over three snapped points, as a roundtrip. -/
theorem ComputeRoute_segment_count_witness :
    ([0, 2, 1] : List Nat) ≠ [] ∧
    ComputeRoute [10, 11, 12] [0, 2, 1] true = some [(10, 12), (12, 11), (11, 10)] ∧
    ((∀ segs, ComputeRoute [10, 11, 12] [0, 2, 1] true = some segs →
      segs.length = if true = true then [0, 2, 1].length else [0, 2, 1].length - 1) ∧
    ((∀ x ∈ [0, 2, 1], x < [10, 11, 12].length) →
      ∃ segs, ComputeRoute [10, 11, 12] [0, 2, 1] true = some segs ∧
        segs.length = if true = true then [0, 2, 1].length else [0, 2, 1].length - 1)) :=
  ⟨by decide, by decide, ComputeRoute_segment_count [10, 11, 12] [0, 2, 1] true (by decide)⟩

/-- C15: for a trip that is a permutation of `[0, N)`, `N ≥ 1`, and `N` snapped points,
`ComputeRoute` reads only inside the vector of snapped points; its `k`-th segment
(`k < N - 1`) goes from the point of `trip[k]` to the point of `trip[k + 1]`, for a
roundtrip the last segment goes from the point of `trip[N - 1]` to the point of
`trip[0]`, and each segment ends where the next one starts. -/
theorem ComputeRoute_segments (n : Nat) (snapped_phantoms : List PhantomNode)
    (trip : List Nat) (roundtrip : Bool) (hn : 1 ≤ n) (hp : trip.Perm (List.range n))
    (hsnapped : snapped_phantoms.length = n) :
    ∃ segs, ComputeRoute snapped_phantoms trip roundtrip = some segs ∧
      (∀ k, k + 1 < n →
        segs[k]? = some (snapped_phantoms.getD (trip.getD k 0) 0,
          snapped_phantoms.getD (trip.getD (k + 1) 0) 0)) ∧
      (roundtrip = true →
        segs[n - 1]? = some (snapped_phantoms.getD (trip.getD (n - 1) 0) 0,
          snapped_phantoms.getD (trip.getD 0 0) 0)) ∧
      (∀ k a b, segs[k]? = some a → segs[k + 1]? = some b → a.2 = b.1) := by
  have hlen := perm_range_length hp
  have hne : trip ≠ [] := by
    intro he; rw [he] at hlen; simp at hlen; omega
  have hin : ∀ x ∈ trip, x < snapped_phantoms.length := fun x hx => by
    rw [hsnapped]; exact List.mem_range.mp (hp.subset hx)
  obtain ⟨segs, hsegs⟩ := ComputeRoute_defined roundtrip hne hin
  obtain ⟨legs, hlegs, hcase⟩ := ComputeRoute_some hsegs
  obtain ⟨hlegslen, hlegsget⟩ := routeLegs_some snapped_phantoms trip legs hlegs
  rw [hlen] at hlegslen hlegsget
  have hfirst : ∀ k, k + 1 < n →
      segs[k]? = some (snapped_phantoms.getD (trip.getD k 0) 0,
        snapped_phantoms.getD (trip.getD (k + 1) 0) 0) := by
    intro k hk
    rcases hcase with ⟨_, hs⟩ | ⟨_, back, front, _, _, hs⟩
    · rw [hs]; exact hlegsget k hk
    · rw [hs, List.getElem?_append_left (by omega)]; exact hlegsget k hk
  have hclosing : roundtrip = true →
      segs[n - 1]? = some (snapped_phantoms.getD (trip.getD (n - 1) 0) 0,
        snapped_phantoms.getD (trip.getD 0 0) 0) := by
    intro hr
    rcases hcase with ⟨hf, _⟩ | ⟨_, back, front, hback, hfront, hs⟩
    · rw [hr] at hf; exact absurd hf (by decide)
    · have hb := getLast?_getD hback
      rw [hlen] at hb
      rw [hs, List.getElem?_append_right (by omega), hlegslen, Nat.sub_self,
        head?_getD hfront, hb]
      rfl
  have hseglen := ComputeRoute_length hsegs
  rw [hlen] at hseglen
  refine ⟨segs, hsegs, hfirst, hclosing, fun k a b ha hb => ?_⟩
  have hk1 : k + 1 < segs.length := by
    rcases Nat.lt_or_ge (k + 1) segs.length with h | h
    · exact h
    · rw [List.getElem?_eq_none h] at hb
      exact absurd hb (by simp)
  have hka := hfirst k (by
    rw [hseglen] at hk1
    split_ifs at hk1 <;> omega)
  rw [hka] at ha
  by_cases hk2 : k + 2 < n
  · have hkb := hfirst (k + 1) hk2
    rw [hkb] at hb
    simp only [Option.some.injEq] at ha hb
    rw [← ha, ← hb]
  · have hr : roundtrip = true := by
      cases roundtrip with
      | true => rfl
      | false =>
        rw [hseglen] at hk1
        simp only [Bool.false_eq_true, if_false] at hk1
        omega
    have hkn : k + 1 = n - 1 := by
      rw [hseglen, if_pos hr] at hk1
      omega
    have hkb := hclosing hr
    rw [← hkn, hb] at hkb
    simp only [Option.some.injEq] at ha hkb
    rw [← ha, hkb]

/-- Witness of C15: the trip `[0, 2, 1]` over three snapped points, as a roundtrip. -/
theorem ComputeRoute_segments_witness :
    [0, 2, 1].Perm (List.range 3) ∧ [10, 11, 12].length = 3 ∧
    ∃ segs, ComputeRoute [10, 11, 12] [0, 2, 1] true = some segs ∧
      (∀ k, k + 1 < 3 →
        segs[k]? = some ([10, 11, 12].getD ([0, 2, 1].getD k 0) 0,
          [10, 11, 12].getD ([0, 2, 1].getD (k + 1) 0) 0)) ∧
      (true = true →
        segs[3 - 1]? = some ([10, 11, 12].getD ([0, 2, 1].getD (3 - 1) 0) 0,
          [10, 11, 12].getD ([0, 2, 1].getD 0 0) 0)) ∧
      (∀ k a b, segs[k]? = some a → segs[k + 1]? = some b → a.2 = b.1) :=
  ⟨by decide, by decide,
    ComputeRoute_segments 3 [10, 11, 12] [0, 2, 1] true (by decide) (by decide) (by decide)⟩

/-! ## The choice of the solver -/

/-- A request that passes every check of `HandleRequest` ends with the route computed
for the rotated result of the solver picked by the number of locations. -/
theorem HandleRequest_reached (env : Collaborators) (parameters : TripParameters)
    (hsupp : IsSupportedParameterCombination (fixedStart parameters) (fixedEnd parameters)
      parameters.roundtrip = true)
    (hsize : ¬ (env.max_locations_trip > 0 ∧
      static_cast_int parameters.number_of_coordinates > env.max_locations_trip))
    (hcoord : env.coordinates_valid = true)
    (hphantom : env.phantom_node_pairs_size = parameters.number_of_coordinates)
    (hindex : (fixedStart parameters && fixedEnd parameters &&
      (decide (sourceId parameters ≥ parameters.number_of_coordinates) ||
        decide (destinationId parameters ≥ parameters.number_of_coordinates))) = false)
    (hnonempty : env.durations ≠ [])
    (hfeasible : IsStronglyConnectedComponent
      ⟨env.durations, parameters.number_of_coordinates⟩ = true) :
    (∀ route,
      ComputeRoute env.snapped_phantoms
        (rotateTrip (fixedStart parameters) (fixedEnd parameters) parameters.roundtrip
          (destinationId parameters)
          (runSolver env (selectedSolver parameters.number_of_coordinates)
            parameters.number_of_coordinates (requestTable parameters env.durations)))
        parameters.roundtrip = some route →
      HandleRequest env parameters =
        Outcome.ok
          (rotateTrip (fixedStart parameters) (fixedEnd parameters) parameters.roundtrip
            (destinationId parameters)
            (runSolver env (selectedSolver parameters.number_of_coordinates)
              parameters.number_of_coordinates (requestTable parameters env.durations)))
          route) ∧
    (ComputeRoute env.snapped_phantoms
        (rotateTrip (fixedStart parameters) (fixedEnd parameters) parameters.roundtrip
          (destinationId parameters)
          (runSolver env (selectedSolver parameters.number_of_coordinates)
            parameters.number_of_coordinates (requestTable parameters env.durations)))
        parameters.roundtrip = none →
      HandleRequest env parameters = Outcome.undefined) := by
  have hsize' : (decide (env.max_locations_trip > 0) &&
      decide (static_cast_int parameters.number_of_coordinates > env.max_locations_trip)) =
      false := by
    rw [Bool.eq_false_iff]
    intro hc
    simp only [Bool.and_eq_true, decide_eq_true_eq] at hc
    exact hsize hc
  have hlen : env.durations.length ≠ 0 := fun h0 => hnonempty (List.length_eq_zero.mp h0)
  have hrun : runSolver env (selectedSolver parameters.number_of_coordinates) =
      if parameters.number_of_coordinates < BF_MAX_FEASABLE then env.BruteForceTrip
      else env.FarthestInsertionTrip := by
    unfold selectedSolver
    split_ifs <;> rfl
  have hunfold : HandleRequest env parameters =
      match ComputeRoute env.snapped_phantoms
        (rotateTrip (fixedStart parameters) (fixedEnd parameters) parameters.roundtrip
          (destinationId parameters)
          (runSolver env (selectedSolver parameters.number_of_coordinates)
            parameters.number_of_coordinates (requestTable parameters env.durations)))
        parameters.roundtrip with
      | some route =>
        Outcome.ok
          (rotateTrip (fixedStart parameters) (fixedEnd parameters) parameters.roundtrip
            (destinationId parameters)
            (runSolver env (selectedSolver parameters.number_of_coordinates)
              parameters.number_of_coordinates (requestTable parameters env.durations)))
          route
      | none => Outcome.undefined := by
    rw [hrun]
    unfold HandleRequest requestTable
    simp only [hsupp, hsize', hcoord, hphantom, hindex, hfeasible,
      DistTableWrapper.size, bne_self_eq_false, beq_iff_eq, hlen, Bool.not_true,
      if_false, Bool.false_eq_true]
    split_ifs <;> rfl
  constructor
  · intro route hroute
    rw [hunfold, hroute]
  · intro hnone
    rw [hunfold, hnone]

theorem selectedSolver_bruteForce_iff (n : Nat) :
    selectedSolver n = Solver.BruteForce ↔ n < 10 := by
  unfold selectedSolver BF_MAX_FEASABLE
  split_ifs with h
  · exact iff_of_true rfl h
  · exact iff_of_false (by simp) h

theorem selectedSolver_farthestInsertion_iff (n : Nat) :
    selectedSolver n = Solver.FarthestInsertion ↔ 10 ≤ n := by
  unfold selectedSolver BF_MAX_FEASABLE
  split_ifs with h
  · exact iff_of_false (by simp) (by omega)
  · exact iff_of_true rfl (by omega)

/-- C16: for a request that reaches the selection of the order, the result is the route
of the rotated output of the selected solver; the brute-force solver is selected exactly
when the number of locations is below 10 and farthest insertion exactly from 10 on (so
for 10 itself); the solver that is not selected is not run: replacing it by any other
function leaves the result unchanged. -/
theorem HandleRequest_solver_choice (env : Collaborators) (parameters : TripParameters)
    (hsupp : IsSupportedParameterCombination (fixedStart parameters) (fixedEnd parameters)
      parameters.roundtrip = true)
    (hsize : ¬ (env.max_locations_trip > 0 ∧
      static_cast_int parameters.number_of_coordinates > env.max_locations_trip))
    (hcoord : env.coordinates_valid = true)
    (hphantom : env.phantom_node_pairs_size = parameters.number_of_coordinates)
    (hindex : (fixedStart parameters && fixedEnd parameters &&
      (decide (sourceId parameters ≥ parameters.number_of_coordinates) ||
        decide (destinationId parameters ≥ parameters.number_of_coordinates))) = false)
    (hnonempty : env.durations ≠ [])
    (hfeasible : IsStronglyConnectedComponent
      ⟨env.durations, parameters.number_of_coordinates⟩ = true) :
    ((∀ route,
      ComputeRoute env.snapped_phantoms
        (rotateTrip (fixedStart parameters) (fixedEnd parameters) parameters.roundtrip
          (destinationId parameters)
          (runSolver env (selectedSolver parameters.number_of_coordinates)
            parameters.number_of_coordinates (requestTable parameters env.durations)))
        parameters.roundtrip = some route →
      HandleRequest env parameters =
        Outcome.ok
          (rotateTrip (fixedStart parameters) (fixedEnd parameters) parameters.roundtrip
          (destinationId parameters)
          (runSolver env (selectedSolver parameters.number_of_coordinates)
            parameters.number_of_coordinates (requestTable parameters env.durations)))
          route) ∧
    (ComputeRoute env.snapped_phantoms
        (rotateTrip (fixedStart parameters) (fixedEnd parameters) parameters.roundtrip
          (destinationId parameters)
          (runSolver env (selectedSolver parameters.number_of_coordinates)
            parameters.number_of_coordinates (requestTable parameters env.durations)))
        parameters.roundtrip = none →
      HandleRequest env parameters = Outcome.undefined)) ∧
    (selectedSolver parameters.number_of_coordinates = Solver.BruteForce ↔
      parameters.number_of_coordinates < 10) ∧
    (selectedSolver parameters.number_of_coordinates = Solver.FarthestInsertion ↔
      10 ≤ parameters.number_of_coordinates) ∧
    selectedSolver 10 = Solver.FarthestInsertion ∧
    (parameters.number_of_coordinates < 10 → ∀ g,
      HandleRequest
        ⟨env.max_locations_trip, env.coordinates_valid, env.phantom_node_pairs_size,
          env.snapped_phantoms, env.durations, env.BruteForceTrip, g⟩ parameters =
        HandleRequest env parameters) ∧
    (10 ≤ parameters.number_of_coordinates → ∀ g,
      HandleRequest
        ⟨env.max_locations_trip, env.coordinates_valid, env.phantom_node_pairs_size,
          env.snapped_phantoms, env.durations, g, env.FarthestInsertionTrip⟩ parameters =
        HandleRequest env parameters) := by
  have h1 := HandleRequest_reached env parameters hsupp hsize hcoord hphantom hindex
    hnonempty hfeasible
  refine ⟨h1, selectedSolver_bruteForce_iff _, selectedSolver_farthestInsertion_iff _,
    by decide, fun hlt g => ?_, fun hge g => ?_⟩
  · have h2 := HandleRequest_reached
      ⟨env.max_locations_trip, env.coordinates_valid, env.phantom_node_pairs_size,
        env.snapped_phantoms, env.durations, env.BruteForceTrip, g⟩ parameters
      hsupp hsize hcoord hphantom hindex hnonempty hfeasible
    have hsel : selectedSolver parameters.number_of_coordinates = Solver.BruteForce :=
      (selectedSolver_bruteForce_iff _).mpr hlt
    rw [hsel] at h1 h2
    cases hc : ComputeRoute env.snapped_phantoms
        (rotateTrip (fixedStart parameters) (fixedEnd parameters) parameters.roundtrip
          (destinationId parameters)
          (env.BruteForceTrip parameters.number_of_coordinates
            (requestTable parameters env.durations)))
        parameters.roundtrip with
    | some route => rw [h1.1 route hc, h2.1 route hc]; rfl
    | none => rw [h1.2 hc, h2.2 hc]
  · have h2 := HandleRequest_reached
      ⟨env.max_locations_trip, env.coordinates_valid, env.phantom_node_pairs_size,
        env.snapped_phantoms, env.durations, g, env.FarthestInsertionTrip⟩ parameters
      hsupp hsize hcoord hphantom hindex hnonempty hfeasible
    have hsel : selectedSolver parameters.number_of_coordinates = Solver.FarthestInsertion :=
      (selectedSolver_farthestInsertion_iff _).mpr hge
    rw [hsel] at h1 h2
    cases hc : ComputeRoute env.snapped_phantoms
        (rotateTrip (fixedStart parameters) (fixedEnd parameters) parameters.roundtrip
          (destinationId parameters)
          (env.FarthestInsertionTrip parameters.number_of_coordinates
            (requestTable parameters env.durations)))
        parameters.roundtrip with
    | some route => rw [h1.1 route hc, h2.1 route hc]; rfl
    | none => rw [h1.2 hc, h2.2 hc]

/-- Witness of C16: three locations with both ends fixed go to the brute-force solver,
and the result does not depend on the farthest-insertion solver. -/
theorem HandleRequest_solver_choice_witness :
    IsSupportedParameterCombination
      (fixedStart ⟨3, SourceType.First, DestinationType.Last, false⟩)
      (fixedEnd ⟨3, SourceType.First, DestinationType.Last, false⟩) false = true ∧
    IsStronglyConnectedComponent ⟨[0, 1, 5, 1, 0, 1, 5, 1, 0], 3⟩ = true ∧
    HandleRequest
      ⟨0, true, 3, [10, 11, 12], [0, 1, 5, 1, 0, 1, 5, 1, 0], fun _ _ => [1, 2, 0],
        fun _ _ => [2, 1, 0]⟩
      ⟨3, SourceType.First, DestinationType.Last, false⟩ =
      Outcome.ok [0, 1, 2] [(10, 11), (11, 12)] ∧
    (∀ g, HandleRequest
      ⟨0, true, 3, [10, 11, 12], [0, 1, 5, 1, 0, 1, 5, 1, 0], fun _ _ => [1, 2, 0], g⟩
      ⟨3, SourceType.First, DestinationType.Last, false⟩ =
      HandleRequest
        ⟨0, true, 3, [10, 11, 12], [0, 1, 5, 1, 0, 1, 5, 1, 0], fun _ _ => [1, 2, 0],
          fun _ _ => [2, 1, 0]⟩
        ⟨3, SourceType.First, DestinationType.Last, false⟩) :=
  ⟨by decide, by decide, by decide,
    (HandleRequest_solver_choice
      ⟨0, true, 3, [10, 11, 12], [0, 1, 5, 1, 0, 1, 5, 1, 0], fun _ _ => [1, 2, 0],
        fun _ _ => [2, 1, 0]⟩
      ⟨3, SourceType.First, DestinationType.Last, false⟩
      (by decide) (by decide) (by decide) (by decide) (by decide) (by decide)
      (by decide)).2.2.2.2.1 (by decide)⟩

/-! ## The cases of the rotation against the supported combinations -/

/-- C17: for a supported combination the rotation takes its first case (about `0`) or
its second case (about the destination); neither case applies exactly when the end is
fixed, the start is not and no roundtrip is requested, a combination that
`IsSupportedParameterCombination` rejects and for which the trip is returned as it
is. -/
theorem rotateTrip_cases (fixed_start fixed_end roundtrip : Bool) (destination_id : Nat)
    (trip : List Nat) :
    (IsSupportedParameterCombination fixed_start fixed_end roundtrip = true →
      ((!fixed_end || fixed_start) = true ∧
        rotateTrip fixed_start fixed_end roundtrip destination_id trip =
          std_rotate trip (std_find trip 0)) ∨
      ((!fixed_end || fixed_start) = false ∧
        (fixed_end && !fixed_start && roundtrip) = true ∧
        rotateTrip fixed_start fixed_end roundtrip destination_id trip =
          std_rotate trip (std_find trip destination_id))) ∧
    (((!fixed_end || fixed_start) = false ∧
        (fixed_end && !fixed_start && roundtrip) = false) ↔
      (fixed_end = true ∧ fixed_start = false ∧ roundtrip = false)) ∧
    ((fixed_end = true ∧ fixed_start = false ∧ roundtrip = false) →
      IsSupportedParameterCombination fixed_start fixed_end roundtrip = false ∧
      rotateTrip fixed_start fixed_end roundtrip destination_id trip = trip) := by
  cases fixed_start <;> cases fixed_end <;> cases roundtrip <;>
    simp [IsSupportedParameterCombination, rotateTrip]

/-- Witness of C17: a fixed end with a free start and a roundtrip, a supported
combination, takes the second case. -/
theorem rotateTrip_cases_witness :
    IsSupportedParameterCombination false true true = true ∧
    rotateTrip false true true 2 [1, 2, 0] = std_rotate [1, 2, 0] (std_find [1, 2, 0] 2) ∧
    ((IsSupportedParameterCombination false true true = true →
      ((!true || false) = true ∧
        rotateTrip false true true 2 [1, 2, 0] =
          std_rotate [1, 2, 0] (std_find [1, 2, 0] 0)) ∨
      ((!true || false) = false ∧
        (true && !false && true) = true ∧
        rotateTrip false true true 2 [1, 2, 0] =
          std_rotate [1, 2, 0] (std_find [1, 2, 0] 2))) ∧
    (((!true || false) = false ∧ (true && !false && true) = false) ↔
      (true = true ∧ false = false ∧ true = false)) ∧
    ((true = true ∧ false = false ∧ true = false) →
      IsSupportedParameterCombination false true true = false ∧
      rotateTrip false true true 2 [1, 2, 0] = [1, 2, 0])) :=
  ⟨by decide, by decide, rotateTrip_cases false true true 2 [1, 2, 0]⟩

/-- The rejected combination with a fixed end only: the trip is left as it is. -/
theorem rotateTrip_fixed_end_only_example :
    IsSupportedParameterCombination false true false = false ∧
    rotateTrip false true false 2 [1, 2, 0] = [1, 2, 0] := by
  decide

/-! ## The transformed table: feasibility and a second application -/

/-- C18: for every `N × N` table, feasible or not, and in-range source and destination
(so `N ≥ 1`), the table after `ManipulateTableForFSE` holds `INVALID_EDGE_WEIGHT` in the
cell (source, destination), and `IsStronglyConnectedComponent` is false on it. -/
theorem ManipulateTableForFSE_not_feasible (n : Nat) (t : DistTableWrapper)
    (source_id destination_id : Nat) (h : t.WellFormed n) (hs : source_id < n)
    (hd : destination_id < n) :
    1 ≤ n ∧
    (ManipulateTableForFSE source_id destination_id t).cost source_id destination_id =
      INVALID_EDGE_WEIGHT ∧
    INVALID_EDGE_WEIGHT ∈ (ManipulateTableForFSE source_id destination_id t).table ∧
    IsStronglyConnectedComponent (ManipulateTableForFSE source_id destination_id t) =
      false := by
  have hcell : (ManipulateTableForFSE source_id destination_id t).cost source_id
      destination_id = INVALID_EDGE_WEIGHT := by
    rw [ManipulateTableForFSE_cost h hs hd hs hd, if_pos ⟨rfl, rfl⟩]
  have hmem : INVALID_EDGE_WEIGHT ∈
      (ManipulateTableForFSE source_id destination_id t).table :=
    (mem_table_iff_cell (ManipulateTableForFSE_wellFormed h hs hd) _).mpr
      ⟨source_id, destination_id, hs, hd, hcell⟩
  refine ⟨by omega, hcell, hmem, ?_⟩
  rw [← Bool.not_eq_true, IsStronglyConnectedComponent_iff_not_mem]
  exact fun hno => hno hmem

/-- Witness of C18: the feasible example table of the sources is no longer feasible
after the transform. -/
theorem ManipulateTableForFSE_not_feasible_witness :
    exampleTable.WellFormed 5 ∧ IsStronglyConnectedComponent exampleTable = true ∧
    (1 ≤ 5 ∧
    (ManipulateTableForFSE 0 4 exampleTable).cost 0 4 = INVALID_EDGE_WEIGHT ∧
    INVALID_EDGE_WEIGHT ∈ (ManipulateTableForFSE 0 4 exampleTable).table ∧
    IsStronglyConnectedComponent (ManipulateTableForFSE 0 4 exampleTable) = false) :=
  ⟨by decide, by decide,
    ManipulateTableForFSE_not_feasible 5 exampleTable 0 4 (by decide) (by decide)
      (by decide)⟩

/-- Two tables for `n` locations with the same cells are the same table. -/
theorem table_ext {n : Nat} {t1 t2 : DistTableWrapper} (h1 : t1.WellFormed n)
    (h2 : t2.WellFormed n)
    (hcells : ∀ r c, r < n → c < n → t1.cost r c = t2.cost r c) : t1 = t2 := by
  obtain ⟨tab1, n1⟩ := t1
  obtain ⟨tab2, n2⟩ := t2
  obtain ⟨hn1, hl1⟩ := h1
  obtain ⟨hn2, hl2⟩ := h2
  simp only at hn1 hl1 hn2 hl2
  have htab : tab1 = tab2 := by
    apply List.ext_getElem (by rw [hl1, hl2])
    intro i hi1 hi2
    have hin : i < n * n := hl1 ▸ hi1
    have hpos : 0 < n := by
      rcases Nat.eq_zero_or_pos n with h0 | h0
      · rw [h0] at hin; simp at hin
      · exact h0
    have hc := hcells (i / n) (i % n) (Nat.div_lt_of_lt_mul hin) (Nat.mod_lt _ hpos)
    unfold DistTableWrapper.cost at hc
    simp only [hn1, hn2, Nat.div_add_mod' i n, List.getD_eq_getElem?_getD,
      List.getElem?_eq_getElem hi1, List.getElem?_eq_getElem hi2, Option.getD_some] at hc
    exact hc
  rw [htab, hn1, hn2]

/-- C19: `ManipulateTableForFSE` is idempotent: a second application with the same
source and destination returns the table of the first. -/
theorem ManipulateTableForFSE_idempotent (n : Nat) (t : DistTableWrapper)
    (source_id destination_id : Nat) (h : t.WellFormed n) (hs : source_id < n)
    (hd : destination_id < n) :
    ManipulateTableForFSE source_id destination_id
        (ManipulateTableForFSE source_id destination_id t) =
      ManipulateTableForFSE source_id destination_id t := by
  have hw := ManipulateTableForFSE_wellFormed h hs hd
  have hww := ManipulateTableForFSE_wellFormed hw hs hd
  apply table_ext hww hw
  intro r c hr hc
  rw [ManipulateTableForFSE_cost hw hs hd hr hc, ManipulateTableForFSE_cost h hs hd hr hc]
  split_ifs <;> rfl

/-- Witness of C19: the example table of the sources with source `0` and destination
`2`. -/
theorem ManipulateTableForFSE_idempotent_witness :
    exampleTable.WellFormed 5 ∧
    ManipulateTableForFSE 0 2 (ManipulateTableForFSE 0 2 exampleTable) =
      ManipulateTableForFSE 0 2 exampleTable :=
  ⟨by decide,
    ManipulateTableForFSE_idempotent 5 exampleTable 0 2 (by decide) (by decide)
      (by decide)⟩

/-! ## The range of `source_id` and `destination_id` -/

/-- With at least one location, fixed start and end mean source `0` and destination
`N - 1`. -/
theorem fixed_ids {parameters : TripParameters}
    (h1 : 1 ≤ parameters.number_of_coordinates)
    (h64 : parameters.number_of_coordinates < 2 ^ 64)
    (hfs : fixedStart parameters = true) (hfe : fixedEnd parameters = true) :
    sourceId parameters = 0 ∧
    destinationId parameters = parameters.number_of_coordinates - 1 := by
  unfold fixedStart at hfs
  unfold fixedEnd at hfe
  rw [beq_iff_eq] at hfs hfe
  rw [size_t_pred_eq h1 h64] at hfe
  exact ⟨hfs, hfe⟩

/-- C20: for a request with `N ≥ 1` locations (`N` a `std::size_t`), when `fixed_start`
and `fixed_end` both hold, `source_id = 0 < N` and `destination_id = N - 1 < N`; the
check of trip.hpp 161-165 does not fire, `HandleRequest` never answers `InvalidValue`
with "Invalid source or destination value.", and the indices handed to
`ManipulateTableForFSE` are in range. -/
theorem HandleRequest_ids_in_range (env : Collaborators) (parameters : TripParameters)
    (h1 : 1 ≤ parameters.number_of_coordinates)
    (h64 : parameters.number_of_coordinates < 2 ^ 64) :
    ((fixedStart parameters = true ∧ fixedEnd parameters = true) →
      sourceId parameters = 0 ∧
      sourceId parameters < parameters.number_of_coordinates ∧
      destinationId parameters = parameters.number_of_coordinates - 1 ∧
      destinationId parameters < parameters.number_of_coordinates) ∧
    (fixedStart parameters && fixedEnd parameters &&
      (decide (sourceId parameters ≥ parameters.number_of_coordinates) ||
        decide (destinationId parameters ≥ parameters.number_of_coordinates))) = false ∧
    HandleRequest env parameters ≠
      Outcome.error "InvalidValue" "Invalid source or destination value." := by
  refine ⟨?_, index_check_passes parameters h1 h64, ?_⟩
  · rintro ⟨hfs, hfe⟩
    obtain ⟨hs, hd⟩ := fixed_ids h1 h64 hfs hfe
    rw [hs, hd]
    exact ⟨rfl, by omega, rfl, by omega⟩
  · unfold HandleRequest
    simp only [index_check_passes parameters h1 h64, Bool.false_eq_true, if_false]
    split_ifs <;> first
      | (simp; done)
      | (split <;> simp)

/-- Witness of C20: three locations with both ends fixed. -/
theorem HandleRequest_ids_in_range_witness :
    (1 : Nat) ≤ 3 ∧
    fixedStart ⟨3, SourceType.First, DestinationType.Last, false⟩ = true ∧
    fixedEnd ⟨3, SourceType.First, DestinationType.Last, false⟩ = true ∧
    sourceId ⟨3, SourceType.First, DestinationType.Last, false⟩ = 0 ∧
    destinationId ⟨3, SourceType.First, DestinationType.Last, false⟩ = 3 - 1 :=
  ⟨by decide, by decide, by decide,
    ((HandleRequest_ids_in_range
      ⟨0, true, 3, [10, 11, 12], [0, 1, 5, 1, 0, 1, 5, 1, 0], fun _ _ => [1, 2, 0],
        fun _ _ => [2, 1, 0]⟩
      ⟨3, SourceType.First, DestinationType.Last, false⟩ (by decide) (by decide)).1
      ⟨by decide, by decide⟩).1,
    ((HandleRequest_ids_in_range
      ⟨0, true, 3, [10, 11, 12], [0, 1, 5, 1, 0, 1, 5, 1, 0], fun _ _ => [1, 2, 0],
        fun _ _ => [2, 1, 0]⟩
      ⟨3, SourceType.First, DestinationType.Last, false⟩ (by decide) (by decide)).1
      ⟨by decide, by decide⟩).2.2.1⟩

end osrm.engine.plugins
